import Mathlib

/-!
Shallow embedding of the core of `evaluate-options-trade.py` (the Request
Orchestration and Per-Instrument Evaluation Engine): the `PriceData`
snapshot accumulator, the admission-controlled request gateway of
`EarningsApp`, and the per-symbol state machine `SymbolProcessor`.

Modelling conventions:
* Python numbers are rationals (`ℚ`); a Python value that may be `None`
  is an `Option ℚ`.
* A Python dict is an association list looked up at the first matching
  key; dict assignment either overwrites the first binding in place or
  appends a fresh binding at the end, matching the insertion-order
  semantics of Python dicts.
* Python sets of request ids are `Finset ℕ`.
* Calls to `time.time()` become an explicit `now : ℚ` argument.
-/

namespace TWS

/-! ### Association list helpers (Python dict semantics) -/

/-- Python `d.get(k)` as presence: `some v` when key `k` is bound (the value
itself may model Python `None`). First binding wins, as in a dict. -/
def lookupField (d : List (String × Option ℚ)) (f : String) : Option (Option ℚ) :=
  match d with
  | [] => none
  | (k, v) :: rest => if k = f then some v else lookupField rest f

/-! ### PriceData (`evaluate-options-trade.py`, class PriceData) -/

def stock_fields : List String := ["LAST", "ASK", "BID"]

def option_fields : List String := ["LAST", "ASK", "BID", "DELTA", "GAMMA", "VEGA", "IV"]

structure PriceData where
  security_type : String
  data : List (String × Option ℚ)
  deriving Repr, DecidableEq

/-- `PriceData.__init__`: empty field map. -/
def PriceData.mk0 (security_type : String) : PriceData :=
  { security_type := security_type, data := [] }

/-- `self.data[field_name] = value`.  Prepending a binding shadows any older
one, which is observationally the overwrite of a dict entry. -/
def PriceData.update (p : PriceData) (value : Option ℚ) (field_name : String) : PriceData :=
  { p with data := (field_name, value) :: p.data }

/-- `f in self.data and self.data[f] is not None`. -/
def PriceData.fieldPresent (p : PriceData) (f : String) : Bool :=
  match lookupField p.data f with
  | none => false
  | some none => false
  | some (some _) => true

/-- `PriceData.is_complete`: two independent `if` blocks on a flag that
starts `True`. -/
def PriceData.is_complete (p : PriceData) : Bool :=
  (if p.security_type = "OPT" then option_fields.all p.fieldPresent else true)
    && (if p.security_type = "STK" then stock_fields.all p.fieldPresent else true)

/-- `self.data.get(field_name, None)`: both an absent key and a stored
`None` read back as `None`. -/
def PriceData.get (p : PriceData) (field_name : String) : Option ℚ :=
  match lookupField p.data field_name with
  | none => none
  | some v => v

/-- `PriceData.get_instrument_value`: mark price, else bid/ask midpoint,
else last trade, else `None`. -/
def PriceData.get_instrument_value (p : PriceData) : Option ℚ :=
  match p.get "MARK_PRICE" with
  | some val => some val
  | none =>
    match p.get "BID", p.get "ASK" with
    | some bid, some ask => some ((bid + ask) / 2)
    | _, _ =>
      match p.get "LAST" with
      | some last => some last
      | none => none

/-! ### Admission-controlled gateway (`EarningsApp`)

Only the admission bookkeeping is modelled: the active sets, the FIFO
queues, and the two bounds.  The payload of a queued request is reduced to
its request id; forwarding to the external service has no effect on this
state. -/

def MAX_CONCURRENT_MKT_DATA : ℕ := 95

def MAX_CONCURRENT_CONTRACTS : ℕ := 5

structure Gateway where
  active_mkt_requests : Finset ℕ
  mkt_data_queue : List ℕ
  active_contract_requests : Finset ℕ
  contract_queue : List ℕ
  deriving DecidableEq

def Gateway.init : Gateway :=
  { active_mkt_requests := ∅, mkt_data_queue := [],
    active_contract_requests := ∅, contract_queue := [] }

/-- `EarningsApp.reqMktData`: admit while under the quote bound, else
enqueue FIFO. -/
def Gateway.reqMktData (g : Gateway) (reqId : ℕ) : Gateway :=
  if g.active_mkt_requests.card < MAX_CONCURRENT_MKT_DATA then
    { g with active_mkt_requests := insert reqId g.active_mkt_requests }
  else
    { g with mkt_data_queue := g.mkt_data_queue ++ [reqId] }

/-- `EarningsApp.reqContractDetails`: admit while under the lookup bound,
else enqueue FIFO. -/
def Gateway.reqContractDetails (g : Gateway) (reqId : ℕ) : Gateway :=
  if g.active_contract_requests.card < MAX_CONCURRENT_CONTRACTS then
    { g with active_contract_requests := insert reqId g.active_contract_requests }
  else
    { g with contract_queue := g.contract_queue ++ [reqId] }

/-- The `while len(active) < bound and queue:` loop shared by
`process_queue` and `process_contract_queue`: pop the head and admit it
while under the bound. -/
def processQueueAux (bound : ℕ) (active : Finset ℕ) : List ℕ → Finset ℕ × List ℕ
  | [] => (active, [])
  | r :: rest =>
    if active.card < bound then processQueueAux bound (insert r active) rest
    else (active, r :: rest)

/-- `EarningsApp.process_queue`: while under the quote bound, pop the queue
head and admit it. -/
def Gateway.process_queue (g : Gateway) : Gateway :=
  let res := processQueueAux MAX_CONCURRENT_MKT_DATA g.active_mkt_requests g.mkt_data_queue
  { g with active_mkt_requests := res.1, mkt_data_queue := res.2 }

/-- `EarningsApp.process_contract_queue`. -/
def Gateway.process_contract_queue (g : Gateway) : Gateway :=
  let res := processQueueAux MAX_CONCURRENT_CONTRACTS g.active_contract_requests
    g.contract_queue
  { g with active_contract_requests := res.1, contract_queue := res.2 }

/-- `EarningsApp.cancelMktData`: an active quote subscription vacates its
slot and promotes from the queue; a queued one is deleted in place.  Only
the quote pool is touched. -/
def Gateway.cancelMktData (g : Gateway) (reqId : ℕ) : Gateway :=
  if reqId ∈ g.active_mkt_requests then
    Gateway.process_queue
      { g with active_mkt_requests := g.active_mkt_requests.erase reqId }
  else
    { g with mkt_data_queue := g.mkt_data_queue.erase reqId }

/-- `EarningsApp.contractDetailsEnd`: the terminal callback of a contract
lookup vacates the contract pool and promotes from its queue. -/
def Gateway.contractDetailsEnd (g : Gateway) (reqId : ℕ) : Gateway :=
  if reqId ∈ g.active_contract_requests then
    Gateway.process_contract_queue
      { g with active_contract_requests := g.active_contract_requests.erase reqId }
  else g

/-- `EarningsApp.error`: an error vacates the contract pool when the id is
an active contract lookup; the quote pool is left untouched. -/
def Gateway.errorEvt (g : Gateway) (reqId : ℕ) : Gateway :=
  if reqId ∈ g.active_contract_requests then
    Gateway.process_contract_queue
      { g with active_contract_requests := g.active_contract_requests.erase reqId }
  else g

/-- One gateway-facing operation: the submit, cancel and terminal-event
entry points of `EarningsApp`. -/
inductive GatewayOp where
  | submitMkt (reqId : ℕ)
  | submitContract (reqId : ℕ)
  | cancelMkt (reqId : ℕ)
  | detailsEnd (reqId : ℕ)
  | errorOp (reqId : ℕ)
  deriving Repr, DecidableEq

def Gateway.step (g : Gateway) : GatewayOp → Gateway
  | .submitMkt r => g.reqMktData r
  | .submitContract r => g.reqContractDetails r
  | .cancelMkt r => g.cancelMktData r
  | .detailsEnd r => g.contractDetailsEnd r
  | .errorOp r => g.errorEvt r

def Gateway.run (ops : List GatewayOp) : Gateway :=
  ops.foldl Gateway.step Gateway.init

end TWS

namespace TWS

/-! ### Contracts, bars, sorting helpers -/

/-- The slice of `ContractDetails.contract` that the engine reads for an
option leg. -/
structure ContractInfo where
  localSymbol : String
  strike : ℚ
  right : String
  deriving Repr, DecidableEq

/-- One historical bar; dates are irrelevant to the modelled logic. -/
structure Bar where
  open_px : ℚ
  high : ℚ
  low : ℚ
  close : ℚ
  deriving Repr, DecidableEq

/-- Stable insertion of `a` into `l`: `a` goes before the first element `b`
with `le a b`. -/
def insertSorted (le : α → α → Bool) (a : α) : List α → List α
  | [] => [a]
  | b :: l => if le a b then a :: b :: l else b :: insertSorted le a l

/-- Stable sort, used to model the stable orderings of
`DataFrame.nsmallest`/`nlargest` (`keep="first"`) and `sort_values`. -/
def sortBy (le : α → α → Bool) : List α → List α
  | [] => []
  | a :: l => insertSorted le a (sortBy le l)

/-- `Series.unique`: distinct values in order of first appearance. -/
def uniqueStrikes (l : List ContractInfo) : List ℚ :=
  l.foldl (fun acc c => if c.strike ∈ acc then acc else acc ++ [c.strike]) []

/-! ### Association helpers for the per-symbol dicts -/

def lookupPD (m : List (String × PriceData)) (k : String) : Option PriceData :=
  match m with
  | [] => none
  | (k2, p) :: rest => if k2 = k then some p else lookupPD rest k

def containsPD (m : List (String × PriceData)) (k : String) : Bool :=
  (lookupPD m k).isSome

/-- Mutate the dict entry at key `k` in place (`self.option_price_data[k]`
holds a mutable `PriceData` object). -/
def modifyPD (m : List (String × PriceData)) (k : String) (f : PriceData → PriceData) :
    List (String × PriceData) :=
  match m with
  | [] => []
  | (k2, p) :: rest => if k2 = k then (k2, f p) :: rest else (k2, p) :: modifyPD rest k f

def lookupReqSym (m : List (ℕ × String)) (r : ℕ) : Option String :=
  match m with
  | [] => none
  | (r2, k) :: rest => if r2 = r then some k else lookupReqSym rest r

/-- Dict assignment `options_chain[localSymbol] = details`: overwrite in
place when the key exists, else append (Python insertion order). -/
def setChain (m : List ContractInfo) (c : ContractInfo) : List ContractInfo :=
  match m with
  | [] => [c]
  | d :: rest => if d.localSymbol = c.localSymbol then c :: rest else d :: setChain rest c

/-! ### SymbolProcessor state

One record per `SymbolProcessor` instance.  `registered` mirrors the
entries of `EarningsApp.request_handlers` owned by this task (the
correlation router); `nextReqId` mirrors `EarningsApp.requestId`.  The
`on_sent` callbacks are modelled as firing at submission time (gateway
under capacity), and every clock read inside one entry point is the single
`now` argument of that entry point.  Log output, `top_moves` contents and
the persisted JSON are out of scope; an emission is recorded as a `Bool`. -/

structure SymbolProcessor where
  status : String
  error_msg : String
  price_data : PriceData
  historic_data : List Bar
  options_chain : List ContractInfo
  req_ids : Finset ℕ
  registered : Finset ℕ
  stock_contract_received : Bool
  price_received : Bool
  history_received : Bool
  option_chain_complete : Bool
  average_percent_move : ℚ
  expected_move : ℚ
  analyzing_options : Bool
  waiting_for_core_options : Bool
  waiting_for_range_options : Bool
  failed : Bool
  abort_processing : Bool
  core_option_reqs : Finset ℕ
  range_option_reqs : Finset ℕ
  option_price_data : List (String × PriceData)
  target_option_keys : List String
  reqid_to_symbol : List (ℕ × String)
  stock_req_id : Option ℕ
  start_time : ℚ
  option_chain_req_time : Option ℚ
  core_options_req_time : Option ℚ
  range_options_req_time : Option ℚ
  filter_min_strike : ℚ
  filter_max_strike : ℚ
  nextReqId : ℕ
  deriving DecidableEq

/-- `SymbolProcessor.__init__`. -/
def SymbolProcessor.init (start_time : ℚ) : SymbolProcessor :=
  { status := "PENDING", error_msg := "",
    price_data := PriceData.mk0 "STK", historic_data := [], options_chain := [],
    req_ids := ∅, registered := ∅,
    stock_contract_received := false, price_received := false,
    history_received := false, option_chain_complete := false,
    average_percent_move := 0, expected_move := 0,
    analyzing_options := false, waiting_for_core_options := false,
    waiting_for_range_options := false, failed := false, abort_processing := false,
    core_option_reqs := ∅, range_option_reqs := ∅,
    option_price_data := [], target_option_keys := [], reqid_to_symbol := [],
    stock_req_id := none, start_time := start_time,
    option_chain_req_time := none, core_options_req_time := none,
    range_options_req_time := none,
    filter_min_strike := 0, filter_max_strike := 0, nextReqId := 0 }

/-- Executable `str.startswith` (usable in kernel evaluation). -/
def strStartsWith (s p : String) : Bool := p.data.isPrefixOf s.data

/-- `SymbolProcessor.is_done`. -/
def SymbolProcessor.is_done (s : SymbolProcessor) : Bool :=
  s.status == "COMPLETED" || s.status == "ABORTED" || strStartsWith s.status "FAILED"
    || strStartsWith s.status "TIMEOUT" || s.status == "ERROR_HISTORY"

/-- `EarningsApp.nextId` as seen by this task. -/
def SymbolProcessor.nextId (s : SymbolProcessor) : ℕ × SymbolProcessor :=
  (s.nextReqId + 1, { s with nextReqId := s.nextReqId + 1 })

/-- `SymbolProcessor.start`. -/
def SymbolProcessor.start (s : SymbolProcessor) : SymbolProcessor :=
  let (reqId, s1) := s.nextId
  { s1 with status := "GETTING_STOCK_CONTRACT",
            registered := insert reqId s1.registered,
            req_ids := insert reqId s1.req_ids }

/-- `SymbolProcessor.stop`: cancel every owned request, unregister its
handler, clear the owned set. -/
def SymbolProcessor.stop (s : SymbolProcessor) : SymbolProcessor :=
  { s with req_ids := ∅, registered := s.registered \ s.req_ids }

/-- A screening field trips the floor when it is non-null, above the -1
no-data sentinel, and below 40. -/
def badField (v : Option ℚ) : Bool :=
  match v with
  | some x => decide (-1 < x) && decide (x < 40)
  | none => false

/-- `SymbolProcessor.is_good_stock` (the returned reason strings carry no
interpolated values; only the Bool is consumed by callers). -/
def SymbolProcessor.is_good_stock (s : SymbolProcessor) : Bool × String :=
  let last := s.price_data.get "LAST"
  let ask := s.price_data.get "ASK"
  let bid := s.price_data.get "BID"
  let val := s.price_data.get_instrument_value
  if badField last then (false, "LAST < 40")
  else if badField ask then (false, "ASK < 40")
  else if badField bid then (false, "BID < 40")
  else
    match val with
    | none => (false, "Val None")
    | some v => if v < 40 then (false, "Val < 40") else (true, "")

end TWS

namespace TWS

/-! ### Option-leg requests and strike-window selection -/

/-- `SymbolProcessor.req_option_data`: allocate an id, register it, record
the key mapping, tag it core or range, and stamp the matching request
time via `on_sent`. -/
def SymbolProcessor.req_option_data (s : SymbolProcessor) (key : String) (is_core : Bool)
    (now : ℚ) : SymbolProcessor :=
  let (reqId, s1) := s.nextId
  let s2 := { s1 with registered := insert reqId s1.registered,
                      req_ids := insert reqId s1.req_ids,
                      reqid_to_symbol := s1.reqid_to_symbol ++ [(reqId, key)] }
  if is_core then
    { s2 with core_option_reqs := insert reqId s2.core_option_reqs,
              core_options_req_time := some now }
  else
    { s2 with range_option_reqs := insert reqId s2.range_option_reqs,
              range_options_req_time := some now }

/-- Outcome of the strike-window selection inside
`start_expected_move_calc`. -/
inductive SelectOutcome where
  | noOpts
  | fewStrikes (found : ℕ)
  | missingOpt
  | selected (atm_call_key atm_put_key strangle_call_key strangle_put_key : String)
      (strike0 atm_strike strike2 : ℚ)
  deriving Repr, DecidableEq

/-- Executable absolute value on the rationals (`Series.abs`). -/
def ratAbs (x : ℚ) : ℚ := if x < 0 then -x else x

/-- `options_df.nsmallest(6, "distance_from_price").sort_values(by="strike")`:
stable-sort the chain rows by absolute strike distance, keep the first 6,
then sort that slice by strike. -/
def closestOptions (current_price : ℚ) (chain : List ContractInfo) : List ContractInfo :=
  sortBy (fun a b => decide (a.strike ≤ b.strike))
    ((sortBy (fun a b =>
        decide (ratAbs (a.strike - current_price) ≤ ratAbs (b.strike - current_price)))
        chain).take 6)

/-- The selection block of `SymbolProcessor.start_expected_move_calc`
(lines 589 to 624): empty frame, distinct strikes of the 6-row slice,
`atm_strike = unique_strikes[1]`, then the four `.index[0]` lookups whose
`IndexError` is `FAILED_MISSING_OPT`. -/
def start_expected_move_calc_select (current_price : ℚ) (chain : List ContractInfo) :
    SelectOutcome :=
  if chain.isEmpty then .noOpts
  else
    let closest := closestOptions current_price chain
    match uniqueStrikes closest with
    | u0 :: u1 :: u2 :: _ =>
      match closest.find? (fun c => c.strike == u1 && c.right == "C"),
            closest.find? (fun c => c.strike == u1 && c.right == "P"),
            closest.find? (fun c => c.strike == u0 && c.right == "P"),
            closest.find? (fun c => c.strike == u2 && c.right == "C") with
      | some ac, some ap, some sp, some sc =>
        .selected ac.localSymbol ap.localSymbol sc.localSymbol sp.localSymbol u0 u1 u2
      | _, _, _, _ => .missingOpt
    | u => .fewStrikes u.length

/-- `SymbolProcessor.start_expected_move_calc`.  A `None` current price
makes the strike-distance arithmetic raise, landing in the `except`
branch (`FAILED_CALC_ERR`). -/
def SymbolProcessor.start_expected_move_calc (s : SymbolProcessor) (now : ℚ) :
    SymbolProcessor :=
  let s := { s with analyzing_options := true }
  match s.price_data.get_instrument_value with
  | none => SymbolProcessor.stop { s with failed := true, status := "FAILED_CALC_ERR" }
  | some current_price =>
    match start_expected_move_calc_select current_price s.options_chain with
    | .noOpts => SymbolProcessor.stop { s with failed := true, status := "FAILED_NO_OPTS" }
    | .fewStrikes _ =>
      SymbolProcessor.stop { s with failed := true, status := "FAILED_FEW_STRIKES" }
    | .missingOpt =>
      SymbolProcessor.stop { s with failed := true, status := "FAILED_MISSING_OPT" }
    | .selected ac ap sc sp _ _ _ =>
      let keys := [ac, ap, sc, sp]
      let s1 := { s with target_option_keys := keys, waiting_for_core_options := true }
      keys.foldl (fun st k => st.req_option_data k true now) s1

/-- `SymbolProcessor.check_step_expected_move`. -/
def SymbolProcessor.check_step_expected_move (s : SymbolProcessor) (now : ℚ) :
    SymbolProcessor :=
  if s.price_received && s.option_chain_complete && !s.analyzing_options
      && !s.waiting_for_core_options && !s.waiting_for_range_options then
    s.start_expected_move_calc now
  else s

/-! ### Callback handlers -/

/-- `SymbolProcessor.handle_tick` (shared body of `on_tick_price` and
`on_tick_size`); `field` is `TickTypeEnum.toStr(tickType)`.  The option
branch stores the value only when it is a number, mirroring the
`isinstance` guard. -/
def SymbolProcessor.handle_tick (s : SymbolProcessor) (reqId : ℕ) (field : String)
    (value : Option ℚ) (now : ℚ) : SymbolProcessor :=
  if s.stock_req_id = some reqId then
    let s1 := { s with price_data := s.price_data.update value field }
    if !s1.price_received && s1.price_data.get_instrument_value.isSome then
      let s2 := { s1 with price_received := true }
      if (s2.is_good_stock).1 = false then
        SymbolProcessor.stop
          { s2 with abort_processing := true, failed := true, status := "ABORTED" }
      else
        s2.check_step_expected_move now
    else s1
  else if reqId ∈ s.core_option_reqs ∨ reqId ∈ s.range_option_reqs then
    match lookupReqSym s.reqid_to_symbol reqId with
    | some local_sym =>
      let s1 :=
        if containsPD s.option_price_data local_sym then s
        else { s with option_price_data :=
                 s.option_price_data ++ [(local_sym, PriceData.mk0 "OPT")] }
      match value with
      | some v =>
        { s1 with option_price_data :=
            modifyPD s1.option_price_data local_sym (fun p => p.update (some v) field) }
      | none => s1
    | none => s
  else s

/-- `SymbolProcessor.on_tick_option_computation`: store the greeks as
delivered (possibly null), and the option price as synthetic
`MARK_PRICE` when non-null. -/
def SymbolProcessor.on_tick_option_computation (s : SymbolProcessor) (reqId : ℕ)
    (impliedVol delta optPrice gamma vega theta : Option ℚ) : SymbolProcessor :=
  match lookupReqSym s.reqid_to_symbol reqId with
  | none => s
  | some local_sym =>
    let s1 :=
      if containsPD s.option_price_data local_sym then s
      else { s with option_price_data :=
               s.option_price_data ++ [(local_sym, PriceData.mk0 "OPT")] }
    { s1 with option_price_data :=
        modifyPD s1.option_price_data local_sym (fun p =>
          let p := p.update delta "DELTA"
          let p := p.update impliedVol "IV"
          let p := p.update gamma "GAMMA"
          let p := p.update vega "VEGA"
          let p := p.update theta "THETA"
          match optPrice with
          | some mp => p.update (some mp) "MARK_PRICE"
          | none => p) }

/-- `SymbolProcessor.on_contract_details`: the stock branch stores the
contract, moves to `PROCESSING` and fires the three parallel requests
(`req_market_data_stock`, `req_history`, `req_option_chain`, inlined
here); the chain branch collects one option contract. -/
def SymbolProcessor.on_contract_details (s : SymbolProcessor) (c : ContractInfo)
    (now : ℚ) : SymbolProcessor :=
  if s.status = "GETTING_STOCK_CONTRACT" then
    let s1 := { s with stock_contract_received := true, status := "PROCESSING" }
    let (rid, s2) := s1.nextId
    let s3 := { s2 with stock_req_id := some rid,
                        registered := insert rid s2.registered,
                        req_ids := insert rid s2.req_ids }
    let (hid, s4) := s3.nextId
    let s5 := { s4 with registered := insert hid s4.registered,
                        req_ids := insert hid s4.req_ids }
    let (cid, s6) := s5.nextId
    { s6 with registered := insert cid s6.registered,
              req_ids := insert cid s6.req_ids,
              option_chain_req_time := some now,
              reqid_to_symbol := [] }
  else if s.status = "PROCESSING" ∨ s.status = "FETCHING_CHAIN" then
    { s with options_chain := setChain s.options_chain c }
  else s

/-- `SymbolProcessor.on_contract_details_end`. -/
def SymbolProcessor.on_contract_details_end (s : SymbolProcessor) (now : ℚ) :
    SymbolProcessor :=
  if (s.status = "PROCESSING" ∨ s.status = "FETCHING_CHAIN") && !s.option_chain_complete then
    if 0 < s.options_chain.length then
      SymbolProcessor.check_step_expected_move
        { s with option_chain_complete := true } now
    else s
  else s

/-- `SymbolProcessor.on_historical_data`: append one bar. -/
def SymbolProcessor.on_historical_data (s : SymbolProcessor) (bar : Bar) :
    SymbolProcessor :=
  { s with historic_data := s.historic_data ++ [bar] }

/-- Percent move of a bar, `(high - low) / close * 100` (a zero close gives
an infinity in pandas; the claims never touch that case). -/
def percentMove (b : Bar) : ℚ :=
  (b.high - b.low) / b.close * 100

/-- `df.nlargest(14, "percent_move")` then `.mean()`: stable descending
sort, first 14, arithmetic mean. -/
def averageTopPercentMove (bars : List Bar) : ℚ :=
  let top := (sortBy (fun a b => decide (percentMove b ≤ percentMove a)) bars).take 14
  (top.map percentMove).sum / top.length

end TWS

namespace TWS

/-! ### Completion, finalization and the supervisor tick -/

/-- `save_results` succeeds in emitting one recommendation record exactly
when the underlying instrument value is non-null; the `None` case raises
inside the `try` and is swallowed after logging.  Record contents (JSON
persistence) are out of scope. -/
def SymbolProcessor.save_results (s : SymbolProcessor) : Bool :=
  s.price_data.get_instrument_value.isSome

/-- `SymbolProcessor.check_completion`: guard, then emit + `COMPLETED` +
`stop` when history is done, no leg wait remains, and analysis started.
The `Bool` is true when a recommendation record was emitted. -/
def SymbolProcessor.check_completion (s : SymbolProcessor) : SymbolProcessor × Bool :=
  if s.failed || s.status == "COMPLETED" then (s, false)
  else if s.history_received && !s.waiting_for_core_options
      && !s.waiting_for_range_options && s.analyzing_options then
    let emitted := s.save_results
    (SymbolProcessor.stop { s with status := "COMPLETED" }, emitted)
  else (s, false)

/-- `SymbolProcessor.on_historical_data_end`: one-shot aggregation of the
series, release of the history request, then a completion check.  The
`except` branch (`ERROR_HISTORY`) is unreachable for well-typed data and
is not modelled. -/
def SymbolProcessor.on_historical_data_end (s : SymbolProcessor) (reqId : ℕ) :
    SymbolProcessor × Bool :=
  let s1 := { s with average_percent_move := averageTopPercentMove s.historic_data,
                     history_received := true,
                     req_ids := s.req_ids.erase reqId,
                     registered := s.registered.erase reqId }
  s1.check_completion

/-- Result of the `vals` collection loop in
`process_expected_move_result`: the first missing key or null value stops
the task with the matching failure. -/
inductive ValsOutcome where
  | missingData
  | valNone
  | ok (vals : List ℚ)
  deriving Repr, DecidableEq

def collect_vals (opd : List (String × PriceData)) : List String → ValsOutcome
  | [] => .ok []
  | k :: rest =>
    match lookupPD opd k with
    | none => .missingData
    | some p =>
      match p.get_instrument_value with
      | none => .valNone
      | some v =>
        match collect_vals opd rest with
        | .ok vs => .ok (v :: vs)
        | r => r

/-- `idx_min` loop: first index whose strike reaches the lower band edge,
defaulting to 0. -/
def idxMinCalc (l : List ℚ) (down : ℚ) : ℕ :=
  match l.findIdx? (fun st => decide (down ≤ st)) with
  | some i => i
  | none => 0

/-- `idx_max` loop: last index whose strike is within the upper band edge,
defaulting to the last index. -/
def idxMaxCalc (l : List ℚ) (up : ℚ) : ℕ :=
  match (l.enum.filter (fun p => decide (p.2 ≤ up))).getLast? with
  | some p => p.1
  | none => l.length - 1

/-- The range-request loop of `process_expected_move_result`: walk the
chain in insertion order and request every entry inside the strike window
that has no price data yet, counting the requests issued. -/
def rangeRequestLoop (fmin fmax now : ℚ) (chain : List ContractInfo)
    (acc : SymbolProcessor × ℕ) : SymbolProcessor × ℕ :=
  chain.foldl (fun acc c =>
    if fmin ≤ c.strike ∧ c.strike ≤ fmax then
      if containsPD acc.1.option_price_data c.localSymbol then acc
      else (acc.1.req_option_data c.localSymbol false now, acc.2 + 1)
    else acc) acc

/-- `SymbolProcessor.process_expected_move_result`: collect the four core
instrument values, set `expected_move = sum / 2`, expand the
`price ± 2 * expected_move` band by two strike increments, and request
every not-yet-requested chain entry inside the window.  A `None`
underlying price raises after `expected_move` is assigned, landing in the
`except` branch (`FAILED_PROC_ERR`); so does indexing an empty strike
list. -/
def SymbolProcessor.process_expected_move_result (s : SymbolProcessor) (now : ℚ) :
    SymbolProcessor × Bool :=
  match collect_vals s.option_price_data s.target_option_keys with
  | .missingData =>
    (SymbolProcessor.stop { s with failed := true, status := "FAILED_MISSING_DATA" }, false)
  | .valNone =>
    (SymbolProcessor.stop { s with failed := true, status := "FAILED_VAL_NONE" }, false)
  | .ok vals =>
    let s := { s with expected_move := vals.sum / 2 }
    match s.price_data.get_instrument_value with
    | none =>
      (SymbolProcessor.stop { s with failed := true, status := "FAILED_PROC_ERR" }, false)
    | some current_price =>
      let double_up := current_price + 2 * s.expected_move
      let double_down := current_price - 2 * s.expected_move
      let sorted_strikes :=
        sortBy (fun a b => decide (a ≤ b)) (uniqueStrikes s.options_chain)
      if sorted_strikes.isEmpty then
        (SymbolProcessor.stop { s with failed := true, status := "FAILED_PROC_ERR" }, false)
      else
        let idx_min_expanded := idxMinCalc sorted_strikes double_down - 2
        let idx_max_expanded :=
          min (sorted_strikes.length - 1) (idxMaxCalc sorted_strikes double_up + 2)
        let fmin := sorted_strikes.getD idx_min_expanded 0
        let fmax := sorted_strikes.getD idx_max_expanded 0
        let s := { s with filter_min_strike := fmin, filter_max_strike := fmax,
                          waiting_for_core_options := false,
                          waiting_for_range_options := true }
        let res := rangeRequestLoop fmin fmax now s.options_chain (s, 0)
        if res.2 = 0 then
          SymbolProcessor.check_completion { res.1 with waiting_for_range_options := false }
        else (res.1, false)

/-- `SymbolProcessor.check_core_options_complete`. -/
def SymbolProcessor.check_core_options_complete (s : SymbolProcessor) (now : ℚ) :
    SymbolProcessor × Bool :=
  if !s.waiting_for_core_options then (s, false)
  else
    let all_good := s.target_option_keys.all (fun k =>
      match lookupPD s.option_price_data k with
      | some p => p.get_instrument_value.isSome
      | none => false)
    if all_good then s.process_expected_move_result now
    else
      match s.core_options_req_time with
      | some t =>
        if 30 < now - t then
          (SymbolProcessor.stop { s with failed := true, status := "TIMEOUT_CORE" }, false)
        else (s, false)
      | none => (s, false)

/-- Membership test of the `pending` list built by
`check_range_options_complete`: a range request whose key has no usable
value yet. -/
def rangeLegPending (s : SymbolProcessor) (r : ℕ) : Bool :=
  match lookupReqSym s.reqid_to_symbol r with
  | some k =>
    match lookupPD s.option_price_data k with
    | some p => p.get_instrument_value.isNone
    | none => true
  | none => false

/-- `SymbolProcessor.check_range_options_complete`: count the range legs
still without a usable value; finalize when none remain or after the 20s
range timeout. -/
def SymbolProcessor.check_range_options_complete (s : SymbolProcessor) (now : ℚ) :
    SymbolProcessor × Bool :=
  if !s.waiting_for_range_options then (s, false)
  else
    let pending := s.range_option_reqs.filter (fun r => rangeLegPending s r = true)
    if pending.card = 0 then
      SymbolProcessor.check_completion { s with waiting_for_range_options := false }
    else
      match s.range_options_req_time with
      | some t =>
        if 20 < now - t then
          SymbolProcessor.check_completion { s with waiting_for_range_options := false }
        else (s, false)
      | none => (s, false)

/-- `SymbolProcessor.check_option_chain_timeout`. -/
def SymbolProcessor.check_option_chain_timeout (s : SymbolProcessor) (now : ℚ) :
    SymbolProcessor :=
  if s.status = "PROCESSING" && !s.option_chain_complete then
    match s.option_chain_req_time with
    | some t =>
      if 30 < now - t then
        SymbolProcessor.check_step_expected_move
          { s with option_chain_complete := true } now
      else s
    | none => s
  else s

/-- The stock-price fallback block of `tick` (lines 796 to 813): when the
price is still missing, history is in, and 15s have passed, substitute the
last historical close, re-run the screening rule, and either abort
(`Sum.inl`: the early `return`) or continue through
`check_step_expected_move` (`Sum.inr`). -/
def SymbolProcessor.tickFallback (s : SymbolProcessor) (now : ℚ) :
    SymbolProcessor ⊕ SymbolProcessor :=
  if s.status == "PROCESSING" && !s.price_received && s.history_received
      && decide (15 < now - s.start_time) then
    match s.historic_data.getLast? with
    | some bar =>
      let s1 := { s with price_data := s.price_data.update (some bar.close) "LAST",
                         price_received := true }
      if (s1.is_good_stock).1 = false then
        Sum.inl (SymbolProcessor.stop
          { s1 with abort_processing := true, failed := true, status := "ABORTED" })
      else Sum.inr (s1.check_step_expected_move now)
    | none => Sum.inr s
  else Sum.inr s

/-- The tail of `tick`: chain timeout check, core-leg check, range-leg
check, completion check, in that order on the running state. -/
def SymbolProcessor.tickPipeline (s2 : SymbolProcessor) (now : ℚ) : SymbolProcessor × Bool :=
  let s3 := if !s2.option_chain_complete then s2.check_option_chain_timeout now else s2
  let r4 := if s3.waiting_for_core_options then s3.check_core_options_complete now
            else (s3, false)
  let r5 := if r4.1.waiting_for_range_options then r4.1.check_range_options_complete now
            else (r4.1, false)
  let r6 := r5.1.check_completion
  (r6.1, r4.2 || r5.2 || r6.2)

/-- `SymbolProcessor.tick`: the supervisor entry point.  The `Bool` is
true when this tick emitted a recommendation record. -/
def SymbolProcessor.tick (s : SymbolProcessor) (now : ℚ) : SymbolProcessor × Bool :=
  if s.failed || s.status == "COMPLETED" || s.status == "ABORTED" then (s, false)
  else if 600 < now - s.start_time then
    (SymbolProcessor.stop { s with failed := true, status := "TIMEOUT_OVERALL" }, false)
  else
    match s.tickFallback now with
    | Sum.inl sAborted => (sAborted, false)
    | Sum.inr s2 => s2.tickPipeline now

/-- `SymbolProcessor.on_error`: advisory codes are ignored; an error on an
owned request during the identity lookup is fatal, with no `stop`. -/
def SymbolProcessor.on_error (s : SymbolProcessor) (reqId : ℕ) (errorCode : ℤ)
    (errorString : String) : SymbolProcessor :=
  if errorCode = 2104 ∨ errorCode = 2106 ∨ errorCode = 2158 then s
  else if reqId ∈ s.req_ids ∧ s.status = "GETTING_STOCK_CONTRACT" then
    { s with failed := true, error_msg := errorString, status := "FAILED" }
  else s

/-! ### Router-dispatched events

`EarningsApp` looks the request id up in `request_handlers` and drops the
event when no handler is registered; `registered` is that map restricted
to this task.  The supervisor tick needs no registration. -/

inductive TaskEvent where
  | contractDetails (reqId : ℕ) (c : ContractInfo)
  | contractDetailsEnd (reqId : ℕ)
  | tickPrice (reqId : ℕ) (field : String) (value : Option ℚ)
  | optionComputation (reqId : ℕ) (impliedVol delta optPrice gamma vega theta : Option ℚ)
  | historicalBar (reqId : ℕ) (bar : Bar)
  | historicalDataEnd (reqId : ℕ)
  | errorEvt (reqId : ℕ) (errorCode : ℤ) (errorString : String)
  | superTick
  deriving Repr, DecidableEq

/-- One router/supervisor step of a task.  The `Bool` reports whether a
recommendation record was emitted during the step. -/
def SymbolProcessor.step (s : SymbolProcessor) (now : ℚ) :
    TaskEvent → SymbolProcessor × Bool
  | .contractDetails r c =>
    if r ∈ s.registered then (s.on_contract_details c now, false) else (s, false)
  | .contractDetailsEnd r =>
    if r ∈ s.registered then (s.on_contract_details_end now, false) else (s, false)
  | .tickPrice r f v =>
    if r ∈ s.registered then (s.handle_tick r f v now, false) else (s, false)
  | .optionComputation r iv d op g vg th =>
    if r ∈ s.registered then (s.on_tick_option_computation r iv d op g vg th, false)
    else (s, false)
  | .historicalBar r b =>
    if r ∈ s.registered then (s.on_historical_data b, false) else (s, false)
  | .historicalDataEnd r =>
    if r ∈ s.registered then s.on_historical_data_end r else (s, false)
  | .errorEvt r c m =>
    if r ∈ s.registered then (s.on_error r c m, false) else (s, false)
  | .superTick => s.tick now

end TWS

namespace TWS

/-- Modelled from the claim wording (refinement reference, not from the
source): select the three strikes closest by absolute distance to the
current instrument value (stable on ties), take the middle one as
at-the-money and the outer two as strangle wings, and locate the four legs
within the 6 closest candidate contracts. -/
def claimSelect (current_price : ℚ) (chain : List ContractInfo) : SelectOutcome :=
  let strikes := uniqueStrikes chain
  let closestStrikes :=
    (sortBy (fun a b =>
      decide (ratAbs (a - current_price) ≤ ratAbs (b - current_price))) strikes).take 3
  match sortBy (fun a b => decide (a ≤ b)) closestStrikes with
  | [w0, atm, w2] =>
    let slice := closestOptions current_price chain
    match slice.find? (fun c => c.strike == atm && c.right == "C"),
          slice.find? (fun c => c.strike == atm && c.right == "P"),
          slice.find? (fun c => c.strike == w0 && c.right == "P"),
          slice.find? (fun c => c.strike == w2 && c.right == "C") with
    | some ac, some ap, some sp, some sc =>
      .selected ac.localSymbol ap.localSymbol sc.localSymbol sp.localSymbol w0 atm w2
    | _, _, _, _ => .missingOpt
  | _ => .fewStrikes strikes.length

end TWS

namespace TWS

/-! ### PriceData lemmas -/

theorem fieldPresent_update (p : PriceData) (f g : String) (v : Option ℚ) :
    (p.update v f).fieldPresent g = if f = g then v.isSome else p.fieldPresent g := by
  unfold PriceData.fieldPresent PriceData.update
  by_cases hfg : f = g
  · simp only [lookupField, hfg, if_pos rfl]
    cases v <;> rfl
  · simp [lookupField, hfg]

theorem all_fieldPresent_update (p : PriceData) (fields : List String) (f : String) (v : ℚ)
    (h : fields.all p.fieldPresent = true) :
    fields.all ((p.update (some v) f).fieldPresent) = true := by
  rw [List.all_eq_true] at h ⊢
  intro x hx
  rw [fieldPresent_update]
  by_cases hfx : f = x
  · simp [hfx]
  · simp only [if_neg hfx]
    exact h x hx

theorem is_complete_update (p : PriceData) (f : String) (v : ℚ)
    (h : p.is_complete = true) : (p.update (some v) f).is_complete = true := by
  have hsec : (p.update (some v) f).security_type = p.security_type := rfl
  unfold PriceData.is_complete at h ⊢
  rw [Bool.and_eq_true] at h ⊢
  rw [hsec]
  constructor
  · by_cases hOPT : p.security_type = "OPT"
    · rw [if_pos hOPT] at h ⊢
      exact all_fieldPresent_update p option_fields f v h.1
    · rw [if_neg hOPT]
  · by_cases hSTK : p.security_type = "STK"
    · rw [if_pos hSTK] at h ⊢
      exact all_fieldPresent_update p stock_fields f v h.2
    · rw [if_neg hSTK]

/-- A sequence of `update` calls carrying (non-null) numeric values. -/
def applyUpdates (p : PriceData) (us : List (String × ℚ)) : PriceData :=
  us.foldl (fun q u => q.update (some u.2) u.1) p

/-- An option snapshot with every required field observed. -/
def pdAllFields : PriceData :=
  option_fields.foldl (fun p f => p.update (some 1) f) (PriceData.mk0 "OPT")

/-- C7 counterexample: `update` is an unconditional write, so an update
that carries a null value clears a required field and `is_complete` drops
back from true to false. -/
theorem C7_counterexample :
    pdAllFields.is_complete = true
      ∧ (pdAllFields.update none "DELTA").is_complete = false := by
  decide

/-- C7 (amended): `is_complete` is monotone under any further `update`
calls that carry non-null values; an update may clear a field (and
completeness) only by writing a null value. -/
theorem C7_amended (p : PriceData) (us : List (String × ℚ))
    (h : p.is_complete = true) : (applyUpdates p us).is_complete = true := by
  induction us generalizing p with
  | nil => exact h
  | cons u rest ih =>
    exact ih (p.update (some u.2) u.1) (is_complete_update p u.1 u.2 h)

/-- C7 witness for the amended theorem at a concrete snapshot and update
sequence. -/
theorem C7_amended_witness :
    (applyUpdates pdAllFields [("LAST", 7), ("BID", 3)]).is_complete = true :=
  C7_amended pdAllFields [("LAST", 7), ("BID", 3)] (by decide)

/-- C10: for a security type that is neither OPT nor STK, both required
field loops are skipped and `is_complete` is vacuously true in every state
of the field map. -/
theorem C10_unrecognized_sec_type (sec : String) (d : List (String × Option ℚ))
    (h1 : sec ≠ "OPT") (h2 : sec ≠ "STK") :
    (PriceData.mk sec d).is_complete = true := by
  unfold PriceData.is_complete
  simp [h1, h2]

/-- C10 witness: a FUT snapshot with no field ever observed is complete. -/
theorem C10_unrecognized_sec_type_witness :
    (PriceData.mk "FUT" []).is_complete = true :=
  C10_unrecognized_sec_type "FUT" [] (by decide) (by decide)

end TWS

namespace TWS

/-! ### Frame lemmas for the task transition functions -/

@[simp] theorem stop_expected_move (s : SymbolProcessor) :
    (s.stop).expected_move = s.expected_move := rfl

@[simp] theorem stop_price_data (s : SymbolProcessor) :
    (s.stop).price_data = s.price_data := rfl

@[simp] theorem stop_price_received (s : SymbolProcessor) :
    (s.stop).price_received = s.price_received := rfl

@[simp] theorem stop_status (s : SymbolProcessor) : (s.stop).status = s.status := rfl

@[simp] theorem stop_failed (s : SymbolProcessor) : (s.stop).failed = s.failed := rfl

@[simp] theorem stop_req_ids (s : SymbolProcessor) : (s.stop).req_ids = ∅ := rfl

@[simp] theorem req_option_data_status (s : SymbolProcessor) (k : String) (b : Bool) (now : ℚ) :
    (s.req_option_data k b now).status = s.status := by cases b <;> rfl

@[simp] theorem req_option_data_expected_move (s : SymbolProcessor) (k : String) (b : Bool)
    (now : ℚ) : (s.req_option_data k b now).expected_move = s.expected_move := by
  cases b <;> rfl

@[simp] theorem req_option_data_price_data (s : SymbolProcessor) (k : String) (b : Bool)
    (now : ℚ) : (s.req_option_data k b now).price_data = s.price_data := by cases b <;> rfl

@[simp] theorem req_option_data_price_received (s : SymbolProcessor) (k : String) (b : Bool)
    (now : ℚ) : (s.req_option_data k b now).price_received = s.price_received := by
  cases b <;> rfl

@[simp] theorem req_option_data_failed (s : SymbolProcessor) (k : String) (b : Bool)
    (now : ℚ) : (s.req_option_data k b now).failed = s.failed := by cases b <;> rfl

@[simp] theorem req_option_data_waiting_core (s : SymbolProcessor) (k : String) (b : Bool)
    (now : ℚ) :
    (s.req_option_data k b now).waiting_for_core_options = s.waiting_for_core_options := by
  cases b <;> rfl

@[simp] theorem req_option_data_waiting_range (s : SymbolProcessor) (k : String) (b : Bool)
    (now : ℚ) :
    (s.req_option_data k b now).waiting_for_range_options = s.waiting_for_range_options := by
  cases b <;> rfl

@[simp] theorem req_option_data_history_received (s : SymbolProcessor) (k : String) (b : Bool)
    (now : ℚ) : (s.req_option_data k b now).history_received = s.history_received := by
  cases b <;> rfl

@[simp] theorem req_option_data_analyzing (s : SymbolProcessor) (k : String) (b : Bool)
    (now : ℚ) : (s.req_option_data k b now).analyzing_options = s.analyzing_options := by
  cases b <;> rfl

theorem check_completion_expected_move (s : SymbolProcessor) :
    ((s.check_completion).1).expected_move = s.expected_move := by
  unfold SymbolProcessor.check_completion
  split_ifs <;> rfl

theorem check_completion_price_data (s : SymbolProcessor) :
    ((s.check_completion).1).price_data = s.price_data := by
  unfold SymbolProcessor.check_completion
  split_ifs <;> rfl

theorem check_completion_price_received (s : SymbolProcessor) :
    ((s.check_completion).1).price_received = s.price_received := by
  unfold SymbolProcessor.check_completion
  split_ifs <;> rfl

theorem rangeRequestLoop_frame (fmin fmax now : ℚ) (chain : List ContractInfo) :
    ∀ acc : SymbolProcessor × ℕ,
      ((rangeRequestLoop fmin fmax now chain acc).1.expected_move = acc.1.expected_move)
      ∧ ((rangeRequestLoop fmin fmax now chain acc).1.price_data = acc.1.price_data)
      ∧ ((rangeRequestLoop fmin fmax now chain acc).1.price_received = acc.1.price_received)
      ∧ ((rangeRequestLoop fmin fmax now chain acc).1.status = acc.1.status)
      ∧ ((rangeRequestLoop fmin fmax now chain acc).1.failed = acc.1.failed) := by
  induction chain with
  | nil => intro acc; exact ⟨rfl, rfl, rfl, rfl, rfl⟩
  | cons c cs ih =>
    intro acc
    simp only [rangeRequestLoop, List.foldl_cons] at *
    by_cases h1 : fmin ≤ c.strike ∧ c.strike ≤ fmax
    · by_cases h2 : containsPD acc.1.option_price_data c.localSymbol
      · simpa [h1, h2] using ih acc
      · have := ih (acc.1.req_option_data c.localSymbol false now, acc.2 + 1)
        simpa [h1, h2] using this
    · simpa [h1] using ih acc

end TWS

namespace TWS

section RatKernelComputation

/- Core marks `Rat` arithmetic `[irreducible]`; re-enable kernel
evaluation locally so that concrete runs of the embedding can be settled
by `decide`. -/
attribute [local semireducible] Rat.sub Rat.add Rat.mul Rat.inv

/-! ### C1: expected move from the four core legs -/

/-- C1: when the four core legs all carry a usable instrument value,
`process_expected_move_result` sets
`expected_move = (v1 + v2 + v3 + v4) / 2`, whatever happens downstream in
the same call. -/
theorem C1_expected_move (s : SymbolProcessor) (now : ℚ) (k1 k2 k3 k4 : String)
    (p1 p2 p3 p4 : PriceData) (v1 v2 v3 v4 : ℚ)
    (hkeys : s.target_option_keys = [k1, k2, k3, k4])
    (hl1 : lookupPD s.option_price_data k1 = some p1)
    (hv1 : p1.get_instrument_value = some v1)
    (hl2 : lookupPD s.option_price_data k2 = some p2)
    (hv2 : p2.get_instrument_value = some v2)
    (hl3 : lookupPD s.option_price_data k3 = some p3)
    (hv3 : p3.get_instrument_value = some v3)
    (hl4 : lookupPD s.option_price_data k4 = some p4)
    (hv4 : p4.get_instrument_value = some v4) :
    ((s.process_expected_move_result now).1).expected_move = (v1 + v2 + v3 + v4) / 2 := by
  have hcv : collect_vals s.option_price_data s.target_option_keys
      = ValsOutcome.ok [v1, v2, v3, v4] := by
    rw [hkeys]
    simp [collect_vals, hl1, hv1, hl2, hv2, hl3, hv3, hl4, hv4]
  have hsum : ([v1, v2, v3, v4] : List ℚ).sum = v1 + v2 + v3 + v4 := by
    simp [List.sum_cons]
    ring
  unfold SymbolProcessor.process_expected_move_result
  rw [hcv]
  simp only []
  cases hpv : s.price_data.get_instrument_value with
  | none => simp [hsum]
  | some cp =>
    simp only [hpv, hsum]
    split
    · rfl
    · split
      · rw [check_completion_expected_move]
        exact (rangeRequestLoop_frame _ _ _ _ _).1
      · exact (rangeRequestLoop_frame _ _ _ _ _).1

/-- One option snapshot holding a single mark price. -/
def pdMark (v : ℚ) : PriceData := (PriceData.mk0 "OPT").update (some v) "MARK_PRICE"

/-- The option price map of the end-to-end scenario: four core legs with
instrument values 3.0, 2.5, 1.0, 1.2. -/
def opdScenario : List (String × PriceData) :=
  [("K1", pdMark 3), ("K2", pdMark (5/2)), ("K3", pdMark 1), ("K4", pdMark (6/5))]

/-- A task state whose four core legs carry the scenario values. -/
def wC1 : SymbolProcessor :=
  { SymbolProcessor.init 0 with
      target_option_keys := ["K1", "K2", "K3", "K4"],
      option_price_data := opdScenario }

/-- C1 witness: at leg values 3.0, 2.5, 1.0 and 1.2 the computed expected
move is 3.85 = 77/20. -/
theorem C1_expected_move_witness :
    ((wC1.process_expected_move_result 0).1).expected_move = (3 + 5/2 + 1 + 6/5) / 2
      ∧ ((3 : ℚ) + 5/2 + 1 + 6/5) / 2 = 77/20 :=
  ⟨C1_expected_move wC1 0 "K1" "K2" "K3" "K4" (pdMark 3) (pdMark (5/2)) (pdMark 1)
      (pdMark (6/5)) 3 (5/2) 1 (6/5) rfl rfl rfl rfl rfl rfl rfl rfl rfl,
    by norm_num⟩

/-! ### C2: strike-window selection -/

/-- The chain of end-to-end scenario A: strikes 45, 50, 55, 60, 65 with
both rights at every strike. -/
def chainScenarioA : List ContractInfo :=
  [⟨"C45", 45, "C"⟩, ⟨"P45", 45, "P"⟩, ⟨"C50", 50, "C"⟩, ⟨"P50", 50, "P"⟩,
   ⟨"C55", 55, "C"⟩, ⟨"P55", 55, "P"⟩, ⟨"C60", 60, "C"⟩, ⟨"P60", 60, "P"⟩,
   ⟨"C65", 65, "C"⟩, ⟨"P65", 65, "P"⟩]

/-- A chain on which the code and the claim wording part ways: strikes 50,
52, 55, 56, all with both rights except 56 (call only), instrument value
55. -/
def chainMissingRight : List ContractInfo :=
  [⟨"C50", 50, "C"⟩, ⟨"P50", 50, "P"⟩, ⟨"C52", 52, "C"⟩, ⟨"P52", 52, "P"⟩,
   ⟨"C55", 55, "C"⟩, ⟨"P55", 55, "P"⟩, ⟨"C56", 56, "C"⟩]

/-- C2 counterexample: on `chainMissingRight` at price 55 the claimed
procedure (three closest strikes 52, 55, 56; ATM 55; wings 52 and 56)
locates all four legs inside the 6-candidate slice, yet the code slices 6
contracts first, reads the distinct slice strikes 50, 52, 55 in ascending
order, picks ATM 52 with wings 50 and 55, misses the 50 put, and fails
with `FAILED_MISSING_OPT`. -/
theorem C2_counterexample :
    start_expected_move_calc_select 55 chainMissingRight = SelectOutcome.missingOpt
      ∧ claimSelect 55 chainMissingRight
          = SelectOutcome.selected "C55" "P55" "C56" "P52" 52 55 56 := by
  constructor <;> decide

/-- C2 (amended): the task slices the 6 contracts closest by absolute
strike distance, sorts them by strike, and reads the distinct strikes of
the slice in ascending order: the second is the ATM strike and the first
and third are the wings; the four legs are located inside the slice and a
missing right there fails the task.  On the scenario chain (strikes 45 to
65, both rights, value 55) this selects ATM 55 with wings 50 and 60. -/
theorem C2_amended :
    start_expected_move_calc_select 55 chainScenarioA
      = SelectOutcome.selected "C55" "P55" "C60" "P50" 50 55 60 := by
  decide

end RatKernelComputation

end TWS

namespace TWS

/-! ### Gateway lemmas -/

theorem processQueueAux_card_le (bound : ℕ) (queue : List ℕ) :
    ∀ active : Finset ℕ, active.card ≤ bound →
      (processQueueAux bound active queue).1.card ≤ bound := by
  induction queue with
  | nil => intro active h; exact h
  | cons r rest ih =>
    intro active h
    unfold processQueueAux
    by_cases hlt : active.card < bound
    · rw [if_pos hlt]
      refine ih _ ?_
      have := Finset.card_insert_le r active
      omega
    · rw [if_neg hlt]; exact h

theorem processQueueAux_subset (bound : ℕ) (queue : List ℕ) :
    ∀ active : Finset ℕ, active ⊆ (processQueueAux bound active queue).1 := by
  induction queue with
  | nil => intro active; exact Finset.Subset.refl _
  | cons r rest ih =>
    intro active
    unfold processQueueAux
    by_cases hlt : active.card < bound
    · rw [if_pos hlt]
      intro a ha
      exact ih (insert r active) (Finset.mem_insert_of_mem ha)
    · rw [if_neg hlt]

theorem processQueueAux_not_mem (bound : ℕ) (queue : List ℕ) (x : ℕ) :
    ∀ active : Finset ℕ, x ∉ active → x ∉ queue →
      x ∉ (processQueueAux bound active queue).1 := by
  induction queue with
  | nil => intro active ha _; exact ha
  | cons r rest ih =>
    intro active ha hq
    unfold processQueueAux
    by_cases hlt : active.card < bound
    · rw [if_pos hlt]
      have hins : x ∉ insert r active := by
        intro hx
        rcases Finset.mem_insert.mp hx with hxr | hxa
        · exact hq (hxr ▸ List.mem_cons_self r rest)
        · exact ha hxa
      exact ih _ hins (fun hx => hq (List.mem_cons_of_mem r hx))
    · rw [if_neg hlt]; exact ha

theorem processQueueAux_head_mem (bound : ℕ) (active : Finset ℕ) (r : ℕ) (rest : List ℕ)
    (h : active.card < bound) : r ∈ (processQueueAux bound active (r :: rest)).1 := by
  unfold processQueueAux
  rw [if_pos h]
  exact processQueueAux_subset bound rest (insert r active) (Finset.mem_insert_self r active)

/-- The two pool bounds of the gateway. -/
def gatewayInv (g : Gateway) : Prop :=
  g.active_mkt_requests.card ≤ MAX_CONCURRENT_MKT_DATA
    ∧ g.active_contract_requests.card ≤ MAX_CONCURRENT_CONTRACTS

theorem gateway_step_inv (g : Gateway) (op : GatewayOp) (h : gatewayInv g) :
    gatewayInv (g.step op) := by
  obtain ⟨h1, h2⟩ := h
  cases op with
  | submitMkt r =>
    show gatewayInv (g.reqMktData r)
    unfold Gateway.reqMktData
    by_cases hlt : g.active_mkt_requests.card < MAX_CONCURRENT_MKT_DATA
    · rw [if_pos hlt]
      refine ⟨?_, h2⟩
      show (insert r g.active_mkt_requests).card ≤ MAX_CONCURRENT_MKT_DATA
      have := Finset.card_insert_le r g.active_mkt_requests
      omega
    · rw [if_neg hlt]; exact ⟨h1, h2⟩
  | submitContract r =>
    show gatewayInv (g.reqContractDetails r)
    unfold Gateway.reqContractDetails
    by_cases hlt : g.active_contract_requests.card < MAX_CONCURRENT_CONTRACTS
    · rw [if_pos hlt]
      refine ⟨h1, ?_⟩
      show (insert r g.active_contract_requests).card ≤ MAX_CONCURRENT_CONTRACTS
      have := Finset.card_insert_le r g.active_contract_requests
      omega
    · rw [if_neg hlt]; exact ⟨h1, h2⟩
  | cancelMkt r =>
    show gatewayInv (g.cancelMktData r)
    unfold Gateway.cancelMktData
    by_cases hm : r ∈ g.active_mkt_requests
    · rw [if_pos hm]
      refine ⟨?_, h2⟩
      show (processQueueAux MAX_CONCURRENT_MKT_DATA (g.active_mkt_requests.erase r)
        g.mkt_data_queue).1.card ≤ MAX_CONCURRENT_MKT_DATA
      refine processQueueAux_card_le _ _ _ ?_
      have := Finset.card_le_card (Finset.erase_subset r g.active_mkt_requests)
      omega
    · rw [if_neg hm]; exact ⟨h1, h2⟩
  | detailsEnd r =>
    show gatewayInv (g.contractDetailsEnd r)
    unfold Gateway.contractDetailsEnd
    by_cases hm : r ∈ g.active_contract_requests
    · rw [if_pos hm]
      refine ⟨h1, ?_⟩
      show (processQueueAux MAX_CONCURRENT_CONTRACTS (g.active_contract_requests.erase r)
        g.contract_queue).1.card ≤ MAX_CONCURRENT_CONTRACTS
      refine processQueueAux_card_le _ _ _ ?_
      have := Finset.card_le_card (Finset.erase_subset r g.active_contract_requests)
      omega
    · rw [if_neg hm]; exact ⟨h1, h2⟩
  | errorOp r =>
    show gatewayInv (g.errorEvt r)
    unfold Gateway.errorEvt
    by_cases hm : r ∈ g.active_contract_requests
    · rw [if_pos hm]
      refine ⟨h1, ?_⟩
      show (processQueueAux MAX_CONCURRENT_CONTRACTS (g.active_contract_requests.erase r)
        g.contract_queue).1.card ≤ MAX_CONCURRENT_CONTRACTS
      refine processQueueAux_card_le _ _ _ ?_
      have := Finset.card_le_card (Finset.erase_subset r g.active_contract_requests)
      omega
    · rw [if_neg hm]; exact ⟨h1, h2⟩

theorem gateway_run_inv (ops : List GatewayOp) :
    ∀ g : Gateway, gatewayInv g → gatewayInv (ops.foldl Gateway.step g) := by
  induction ops with
  | nil => intro g h; exact h
  | cons op rest ih =>
    intro g h
    exact ih _ (gateway_step_inv g op h)

/-- C3: after every sequence of submit, cancel and terminal-event
operations starting from the empty gateway, the quote pool holds at most
95 active subscriptions and the contract pool at most 5 active lookups. -/
theorem C3_active_bounds (ops : List GatewayOp) :
    (Gateway.run ops).active_mkt_requests.card ≤ MAX_CONCURRENT_MKT_DATA
      ∧ (Gateway.run ops).active_contract_requests.card ≤ MAX_CONCURRENT_CONTRACTS :=
  gateway_run_inv ops Gateway.init ⟨by decide, by decide⟩

end TWS

namespace TWS

/-! ### C4: slot vacation on terminal events -/

/-- 96 quote submissions (95 admitted, number 96 queued) followed by an
error on the in-flight quote request 1. -/
def opsQuoteError : List GatewayOp :=
  (List.range 96).map (fun i => GatewayOp.submitMkt (i + 1)) ++ [GatewayOp.errorOp 1]

set_option maxRecDepth 100000 in
/-- C4 counterexample: with the quote pool full and request 96 queued, an
error observed for the in-flight quote request 1 leaves request 1 in the
active set and request 96 unadmitted: `error` only vacates the contract
pool. -/
theorem C4_counterexample :
    1 ∈ (Gateway.run opsQuoteError).active_mkt_requests
      ∧ (Gateway.run opsQuoteError).mkt_data_queue = [96]
      ∧ (Gateway.run opsQuoteError).active_mkt_requests.card = 95 := by
  refine ⟨by decide, by decide, by decide⟩

/-- C4 (amended): a contract lookup vacates its slot and admits the queue
head on its end-of-data callback or on an error; a quote subscription
vacates its slot and admits the queue head only on an explicit cancel;
an error never touches the quote pool, and a cancel never touches the
contract pool. -/
theorem C4_amended :
    (∀ (g : Gateway) (r hd : ℕ) (t : List ℕ),
      g.active_contract_requests.card ≤ MAX_CONCURRENT_CONTRACTS →
      r ∈ g.active_contract_requests →
      g.contract_queue = hd :: t → r ∉ g.contract_queue →
      (r ∉ (g.contractDetailsEnd r).active_contract_requests
        ∧ hd ∈ (g.contractDetailsEnd r).active_contract_requests)
      ∧ (r ∉ (g.errorEvt r).active_contract_requests
        ∧ hd ∈ (g.errorEvt r).active_contract_requests))
    ∧ (∀ (g : Gateway) (r hd : ℕ) (t : List ℕ),
      g.active_mkt_requests.card ≤ MAX_CONCURRENT_MKT_DATA →
      r ∈ g.active_mkt_requests →
      g.mkt_data_queue = hd :: t → r ∉ g.mkt_data_queue →
      r ∉ (g.cancelMktData r).active_mkt_requests
        ∧ hd ∈ (g.cancelMktData r).active_mkt_requests)
    ∧ (∀ (g : Gateway) (r : ℕ),
      (g.errorEvt r).active_mkt_requests = g.active_mkt_requests
      ∧ (g.errorEvt r).mkt_data_queue = g.mkt_data_queue
      ∧ (g.cancelMktData r).active_contract_requests = g.active_contract_requests
      ∧ (g.cancelMktData r).contract_queue = g.contract_queue) := by
  refine ⟨?_, ?_, ?_⟩
  · intro g r hd t hb hr hq hnq
    have key : r ∉ (processQueueAux MAX_CONCURRENT_CONTRACTS
          (g.active_contract_requests.erase r) g.contract_queue).1
        ∧ hd ∈ (processQueueAux MAX_CONCURRENT_CONTRACTS
          (g.active_contract_requests.erase r) g.contract_queue).1 := by
      constructor
      · exact processQueueAux_not_mem _ _ _ _ (Finset.not_mem_erase r _) hnq
      · rw [hq]
        refine processQueueAux_head_mem _ _ _ _ ?_
        have hpos : 0 < g.active_contract_requests.card := Finset.card_pos.mpr ⟨r, hr⟩
        have herase := Finset.card_erase_of_mem hr
        omega
    constructor
    · unfold Gateway.contractDetailsEnd
      rw [if_pos hr]
      exact key
    · unfold Gateway.errorEvt
      rw [if_pos hr]
      exact key
  · intro g r hd t hb hr hq hnq
    unfold Gateway.cancelMktData
    rw [if_pos hr]
    constructor
    · exact processQueueAux_not_mem _ _ _ _ (Finset.not_mem_erase r _) hnq
    · show hd ∈ (processQueueAux MAX_CONCURRENT_MKT_DATA
        (g.active_mkt_requests.erase r) g.mkt_data_queue).1
      rw [hq]
      refine processQueueAux_head_mem _ _ _ _ ?_
      have hpos : 0 < g.active_mkt_requests.card := Finset.card_pos.mpr ⟨r, hr⟩
      have herase := Finset.card_erase_of_mem hr
      omega
  · intro g r
    refine ⟨?_, ?_, ?_, ?_⟩
    · unfold Gateway.errorEvt
      by_cases hm : r ∈ g.active_contract_requests
      · rw [if_pos hm]; rfl
      · rw [if_neg hm]
    · unfold Gateway.errorEvt
      by_cases hm : r ∈ g.active_contract_requests
      · rw [if_pos hm]; rfl
      · rw [if_neg hm]
    · unfold Gateway.cancelMktData
      by_cases hm : r ∈ g.active_mkt_requests
      · rw [if_pos hm]; rfl
      · rw [if_neg hm]
    · unfold Gateway.cancelMktData
      by_cases hm : r ∈ g.active_mkt_requests
      · rw [if_pos hm]; rfl
      · rw [if_neg hm]

/-- Six contract submissions: 1 to 5 admitted, 6 queued. -/
def opsContractFill : List GatewayOp :=
  (List.range 6).map (fun i => GatewayOp.submitContract (i + 1))

set_option maxRecDepth 100000 in
/-- C4 witness for the amended theorem: on the full contract pool with
request 6 queued, ending lookup 1 removes it and admits 6; on the full
quote pool with request 96 queued, cancelling subscription 1 removes it
and admits 96; errors leave the quote pool untouched. -/
theorem C4_amended_witness :
    ((1 ∉ ((Gateway.run opsContractFill).contractDetailsEnd 1).active_contract_requests
        ∧ 6 ∈ ((Gateway.run opsContractFill).contractDetailsEnd 1).active_contract_requests)
      ∧ (1 ∉ ((Gateway.run opsContractFill).errorEvt 1).active_contract_requests
        ∧ 6 ∈ ((Gateway.run opsContractFill).errorEvt 1).active_contract_requests))
    ∧ (1 ∉ ((Gateway.run (opsQuoteError.take 96)).cancelMktData 1).active_mkt_requests
      ∧ 96 ∈ ((Gateway.run (opsQuoteError.take 96)).cancelMktData 1).active_mkt_requests)
    ∧ ((Gateway.init.errorEvt 3).active_mkt_requests = Gateway.init.active_mkt_requests
      ∧ (Gateway.init.errorEvt 3).mkt_data_queue = Gateway.init.mkt_data_queue
      ∧ (Gateway.init.cancelMktData 3).active_contract_requests
          = Gateway.init.active_contract_requests
      ∧ (Gateway.init.cancelMktData 3).contract_queue = Gateway.init.contract_queue) :=
  ⟨C4_amended.1 (Gateway.run opsContractFill) 1 6 [] (by decide) (by decide) (by decide)
      (by decide),
    C4_amended.2.1 (Gateway.run (opsQuoteError.take 96)) 1 96 [] (by decide) (by decide)
      (by decide) (by decide),
    C4_amended.2.2 Gateway.init 3⟩

end TWS

namespace TWS

section RatKernelComputationB

attribute [local semireducible] Rat.sub Rat.add Rat.mul Rat.inv

/-! ### C5: the screening rule at the first usable price -/

theorem foldl_req_option_data_status (now : ℚ) (keys : List String) :
    ∀ s : SymbolProcessor,
      (keys.foldl (fun st k => st.req_option_data k true now) s).status = s.status := by
  induction keys with
  | nil => intro s; rfl
  | cons k rest ih =>
    intro s
    rw [List.foldl_cons, ih, req_option_data_status]

theorem start_expected_move_calc_ne_aborted (s : SymbolProcessor) (now : ℚ)
    (h : s.status ≠ "ABORTED") : (s.start_expected_move_calc now).status ≠ "ABORTED" := by
  unfold SymbolProcessor.start_expected_move_calc
  dsimp only
  split
  · simp only [stop_status]
    decide
  · split
    · simp only [stop_status]; decide
    · simp only [stop_status]; decide
    · simp only [stop_status]; decide
    · rw [foldl_req_option_data_status]
      exact h

theorem check_step_expected_move_ne_aborted (s : SymbolProcessor) (now : ℚ)
    (h : s.status ≠ "ABORTED") : (s.check_step_expected_move now).status ≠ "ABORTED" := by
  unfold SymbolProcessor.check_step_expected_move
  split
  · exact start_expected_move_calc_ne_aborted _ now h
  · exact h

/-- The screening condition as the reference rule actually implemented:
a tracked quote field rejects only when it is non-null, above the -1
no-data sentinel, and below the 40 floor; a usable instrument value
rejects when below 40. -/
def screeningReject (p : PriceData) : Prop :=
  badField (p.get "LAST") = true ∨ badField (p.get "ASK") = true
    ∨ badField (p.get "BID") = true
    ∨ (∃ v, p.get_instrument_value = some v ∧ v < 40)


theorem is_good_stock_false_iff (s : SymbolProcessor)
    (hus : (s.price_data.get_instrument_value).isSome = true) :
    ((s.is_good_stock).1 = false) ↔ screeningReject s.price_data := by
  cases hv : s.price_data.get_instrument_value with
  | none => rw [hv] at hus; simp at hus
  | some v =>
    unfold SymbolProcessor.is_good_stock screeningReject
    dsimp only
    rw [hv]
    split_ifs with h1 h2 h3 <;> simp_all
    by_cases hlt : v < 40 <;> simp [hlt]

theorem handle_tick_stock_first_usable (s : SymbolProcessor) (reqId : ℕ) (field : String)
    (value : Option ℚ) (now : ℚ)
    (hreq : s.stock_req_id = some reqId)
    (hpr : s.price_received = false)
    (husable : ((s.price_data.update value field).get_instrument_value).isSome = true) :
    s.handle_tick reqId field value now =
      (if ((({ s with price_data := s.price_data.update value field,
                      price_received := true } : SymbolProcessor)).is_good_stock).1 = false
       then
         SymbolProcessor.stop
           { s with price_data := s.price_data.update value field, price_received := true,
                    abort_processing := true, failed := true, status := "ABORTED" }
       else
         SymbolProcessor.check_step_expected_move
           { s with price_data := s.price_data.update value field, price_received := true }
           now) := by
  unfold SymbolProcessor.handle_tick
  rw [if_pos hreq]
  dsimp only
  rw [hpr]
  simp only [Bool.not_false, Bool.true_and, husable, if_true]

/-- C5 (amended): at the first usable instrument value, the task aborts
(with its owned-request set cleared) exactly when some tracked quote field
is non-null, above the -1 no-data sentinel, and below the 40 floor, or the
usable instrument value itself is below 40. -/
theorem C5_amended (s : SymbolProcessor) (reqId : ℕ) (field : String) (value : Option ℚ)
    (now : ℚ)
    (hreq : s.stock_req_id = some reqId)
    (hpr : s.price_received = false)
    (hstatus : s.status = "PROCESSING")
    (husable : ((s.price_data.update value field).get_instrument_value).isSome = true) :
    ((s.handle_tick reqId field value now).status = "ABORTED"
        ↔ screeningReject (s.price_data.update value field))
      ∧ ((s.handle_tick reqId field value now).status = "ABORTED" →
          (s.handle_tick reqId field value now).req_ids = ∅
            ∧ (s.handle_tick reqId field value now).failed = true) := by
  rw [handle_tick_stock_first_usable s reqId field value now hreq hpr husable]
  have hsne : s.status ≠ "ABORTED" := by rw [hstatus]; decide
  split_ifs with hrej
  · refine ⟨⟨fun _ => ?_, fun _ => rfl⟩, fun _ => ⟨rfl, rfl⟩⟩
    exact (is_good_stock_false_iff _ husable).mp hrej
  · refine ⟨⟨fun habs => absurd habs ?_, fun hscr => ?_⟩,
      fun habs => absurd habs ?_⟩
    · exact check_step_expected_move_ne_aborted _ now hsne
    · exact absurd ((is_good_stock_false_iff _ husable).mpr hscr) hrej
    · exact check_step_expected_move_ne_aborted _ now hsne

/-- A freshly started task in `PROCESSING` whose underlying quote
subscription carries request id 2. -/
def stateW5 : SymbolProcessor :=
  { SymbolProcessor.init 0 with status := "PROCESSING", stock_req_id := some 2 }

/-- C5 witness for the amended theorem: a first LAST tick of 38 trips the
floor and the task aborts with its request set cleared. -/
theorem C5_amended_witness :
    ((stateW5.handle_tick 2 "LAST" (some 38) 1).status = "ABORTED"
        ↔ screeningReject (stateW5.price_data.update (some 38) "LAST"))
      ∧ ((stateW5.handle_tick 2 "LAST" (some 38) 1).status = "ABORTED" →
          (stateW5.handle_tick 2 "LAST" (some 38) 1).req_ids = ∅
            ∧ (stateW5.handle_tick 2 "LAST" (some 38) 1).failed = true) :=
  C5_amended stateW5 2 "LAST" (some 38) 1 rfl rfl rfl (by decide)

/-- The task right after the stock contract details arrived: requests 2
(quote), 3 (history), 4 (chain) are owned, status `PROCESSING`. -/
def taskAfterContract : SymbolProcessor :=
  (SymbolProcessor.init 0).start.on_contract_details ⟨"", 0, ""⟩ 1

/-- A first BID tick of -1 (the no-data sentinel): still no usable value. -/
def taskAfterBidTick : SymbolProcessor :=
  taskAfterContract.handle_tick 2 "BID" (some (-1)) 2

/-- A following ASK tick of 100: the snapshot becomes usable with
midpoint 49.5 while BID stays -1. -/
def taskAfterAskTick : SymbolProcessor :=
  taskAfterBidTick.handle_tick 2 "ASK" (some 100) 3

/-- C5 counterexample: at the first usable instrument value the snapshot
holds BID = -1, which is non-null and below the 40 floor, so the claim
demands `ABORTED`; the code keeps the -1 sentinel out of the screening
rule (`bid > -1` fails) and the task stays in `PROCESSING`. -/
theorem C5_counterexample :
    taskAfterBidTick.price_received = false
      ∧ taskAfterBidTick.price_data.get_instrument_value = none
      ∧ taskAfterAskTick.price_received = true
      ∧ taskAfterAskTick.price_data.get_instrument_value = some (99 / 2)
      ∧ taskAfterAskTick.price_data.get "BID" = some (-1)
      ∧ ((-1 : ℚ) < 40)
      ∧ taskAfterAskTick.status = "PROCESSING" := by
  refine ⟨by decide, by decide, by decide, by decide, by decide, by decide, by decide⟩

end RatKernelComputationB

end TWS

namespace TWS

/-! ### C9: COMPLETED is absorbing, nothing is re-emitted -/

/-- C9: once a task is `COMPLETED` (its registrations were cleared by the
terminal `stop`), the completion check, the supervisor tick, and every
router-dispatched callback leave the state unchanged and emit nothing;
hence `COMPLETED` is entered at most once and the recommendation record is
emitted at most once. -/
theorem C9_completed_idempotent (s : SymbolProcessor) (now : ℚ)
    (hc : s.status = "COMPLETED") (hreg : s.registered = ∅) :
    s.check_completion = (s, false)
      ∧ s.tick now = (s, false)
      ∧ (∀ e : TaskEvent, s.step now e = (s, false)) := by
  have hcc : s.check_completion = (s, false) := by
    unfold SymbolProcessor.check_completion
    rw [hc]
    simp
  have htick : s.tick now = (s, false) := by
    unfold SymbolProcessor.tick
    rw [hc]
    simp
  refine ⟨hcc, htick, ?_⟩
  intro e
  cases e <;> simp [SymbolProcessor.step, hreg, htick]

/-- A task that has already completed: terminal status, registrations
cleared. -/
def stateW9 : SymbolProcessor := { SymbolProcessor.init 0 with status := "COMPLETED" }

/-- C9 witness: on a concrete completed task, a completion check, a tick
and a late price callback are all no-ops that emit nothing. -/
theorem C9_completed_idempotent_witness :
    stateW9.check_completion = (stateW9, false)
      ∧ stateW9.tick 5 = (stateW9, false)
      ∧ stateW9.step 5 (TaskEvent.tickPrice 2 "LAST" (some 50)) = (stateW9, false) :=
  ⟨(C9_completed_idempotent stateW9 5 rfl rfl).1,
    (C9_completed_idempotent stateW9 5 rfl rfl).2.1,
    (C9_completed_idempotent stateW9 5 rfl rfl).2.2 (TaskEvent.tickPrice 2 "LAST" (some 50))⟩

end TWS

namespace TWS

/-! ### Price-snapshot preservation through the analysis pipeline -/

theorem foldl_req_option_data_price (now : ℚ) (keys : List String) :
    ∀ s : SymbolProcessor,
      ((keys.foldl (fun st k => st.req_option_data k true now) s).price_data = s.price_data)
      ∧ ((keys.foldl (fun st k => st.req_option_data k true now) s).price_received
          = s.price_received) := by
  induction keys with
  | nil => intro s; exact ⟨rfl, rfl⟩
  | cons k rest ih =>
    intro s
    rw [List.foldl_cons]
    obtain ⟨h1, h2⟩ := ih (s.req_option_data k true now)
    rw [h1, h2, req_option_data_price_data, req_option_data_price_received]
    exact ⟨rfl, rfl⟩

theorem start_expected_move_calc_price (s : SymbolProcessor) (now : ℚ) :
    ((s.start_expected_move_calc now).price_data = s.price_data)
      ∧ ((s.start_expected_move_calc now).price_received = s.price_received) := by
  unfold SymbolProcessor.start_expected_move_calc
  dsimp only
  split
  · exact ⟨rfl, rfl⟩
  · split
    · exact ⟨rfl, rfl⟩
    · exact ⟨rfl, rfl⟩
    · exact ⟨rfl, rfl⟩
    · exact foldl_req_option_data_price now _ _

theorem check_step_expected_move_price (s : SymbolProcessor) (now : ℚ) :
    ((s.check_step_expected_move now).price_data = s.price_data)
      ∧ ((s.check_step_expected_move now).price_received = s.price_received) := by
  unfold SymbolProcessor.check_step_expected_move
  split
  · exact start_expected_move_calc_price _ _
  · exact ⟨rfl, rfl⟩

theorem check_option_chain_timeout_price (s : SymbolProcessor) (now : ℚ) :
    ((s.check_option_chain_timeout now).price_data = s.price_data)
      ∧ ((s.check_option_chain_timeout now).price_received = s.price_received) := by
  unfold SymbolProcessor.check_option_chain_timeout
  split
  · split
    · split
      · exact check_step_expected_move_price _ _
      · exact ⟨rfl, rfl⟩
    · exact ⟨rfl, rfl⟩
  · exact ⟨rfl, rfl⟩

theorem process_expected_move_result_price (s : SymbolProcessor) (now : ℚ) :
    ((s.process_expected_move_result now).1.price_data = s.price_data)
      ∧ ((s.process_expected_move_result now).1.price_received = s.price_received) := by
  unfold SymbolProcessor.process_expected_move_result
  split
  · exact ⟨rfl, rfl⟩
  · exact ⟨rfl, rfl⟩
  · dsimp only
    split
    · exact ⟨rfl, rfl⟩
    · split
      · exact ⟨rfl, rfl⟩
      · split
        · constructor
          · rw [check_completion_price_data]
            exact (rangeRequestLoop_frame _ _ _ _ _).2.1
          · rw [check_completion_price_received]
            exact (rangeRequestLoop_frame _ _ _ _ _).2.2.1
        · exact ⟨(rangeRequestLoop_frame _ _ _ _ _).2.1,
            (rangeRequestLoop_frame _ _ _ _ _).2.2.1⟩

theorem check_core_options_complete_price (s : SymbolProcessor) (now : ℚ) :
    ((s.check_core_options_complete now).1.price_data = s.price_data)
      ∧ ((s.check_core_options_complete now).1.price_received = s.price_received) := by
  unfold SymbolProcessor.check_core_options_complete
  split
  · exact ⟨rfl, rfl⟩
  · dsimp only
    split
    · exact process_expected_move_result_price _ _
    · split
      · split
        · exact ⟨rfl, rfl⟩
        · exact ⟨rfl, rfl⟩
      · exact ⟨rfl, rfl⟩

theorem check_range_options_complete_price (s : SymbolProcessor) (now : ℚ) :
    ((s.check_range_options_complete now).1.price_data = s.price_data)
      ∧ ((s.check_range_options_complete now).1.price_received = s.price_received) := by
  unfold SymbolProcessor.check_range_options_complete
  split
  · exact ⟨rfl, rfl⟩
  · dsimp only
    split
    · exact ⟨check_completion_price_data _, check_completion_price_received _⟩
    · split
      · split
        · exact ⟨check_completion_price_data _, check_completion_price_received _⟩
        · exact ⟨rfl, rfl⟩
      · exact ⟨rfl, rfl⟩

theorem tickPipeline_price (s2 : SymbolProcessor) (now : ℚ) :
    ((s2.tickPipeline now).1.price_data = s2.price_data)
      ∧ ((s2.tickPipeline now).1.price_received = s2.price_received) := by
  unfold SymbolProcessor.tickPipeline
  dsimp only
  have h3 : ∀ t : SymbolProcessor,
      ((if !t.option_chain_complete then t.check_option_chain_timeout now else t).price_data
        = t.price_data)
      ∧ ((if !t.option_chain_complete then t.check_option_chain_timeout now
          else t).price_received = t.price_received) := by
    intro t
    split
    · exact check_option_chain_timeout_price _ _
    · exact ⟨rfl, rfl⟩
  have h4 : ∀ t : SymbolProcessor,
      (((if t.waiting_for_core_options then t.check_core_options_complete now
          else (t, false)).1.price_data = t.price_data))
      ∧ (((if t.waiting_for_core_options then t.check_core_options_complete now
          else (t, false)).1.price_received = t.price_received)) := by
    intro t
    split
    · exact check_core_options_complete_price _ _
    · exact ⟨rfl, rfl⟩
  have h5 : ∀ t : SymbolProcessor,
      (((if t.waiting_for_range_options then t.check_range_options_complete now
          else (t, false)).1.price_data = t.price_data))
      ∧ (((if t.waiting_for_range_options then t.check_range_options_complete now
          else (t, false)).1.price_received = t.price_received)) := by
    intro t
    split
    · exact check_range_options_complete_price _ _
    · exact ⟨rfl, rfl⟩
  constructor
  · rw [check_completion_price_data, (h5 _).1, (h4 _).1, (h3 _).1]
  · rw [check_completion_price_received, (h5 _).2, (h4 _).2, (h3 _).2]

theorem update_last_usable (p : PriceData) (c : ℚ) :
    ((p.update (some c) "LAST").get_instrument_value).isSome = true := by
  have hl : (p.update (some c) "LAST").get "LAST" = some c := by
    simp [PriceData.get, PriceData.update, lookupField]
  unfold PriceData.get_instrument_value
  split
  · rfl
  · split
    · rfl
    · rw [hl]
      rfl

end TWS

namespace TWS

section RatKernelComputationC

attribute [local semireducible] Rat.sub Rat.add Rat.mul Rat.inv

/-! ### C8: the 15-second historical-close price fallback -/

/-- C8: when the price is still unusable, history is complete and
non-empty, more than 15s (and at most the 600s overall budget) have
elapsed, the supervisor tick writes the last historical close into the
snapshot as LAST, marks the price received, and aborts (releasing the
owned requests) whenever the screening rule rejects the substitute. -/
theorem C8_price_fallback (s : SymbolProcessor) (now : ℚ) (bar : Bar)
    (hstatus : s.status = "PROCESSING")
    (hfailed : s.failed = false)
    (hpr : s.price_received = false)
    (hhist : s.history_received = true)
    (hlast : s.historic_data.getLast? = some bar)
    (h15 : 15 < now - s.start_time)
    (h600 : now - s.start_time ≤ 600) :
    ((s.tick now).1.price_data = s.price_data.update (some bar.close) "LAST")
      ∧ ((s.tick now).1.price_received = true)
      ∧ (screeningReject (s.price_data.update (some bar.close) "LAST") →
          (s.tick now).1.status = "ABORTED"
            ∧ (s.tick now).1.req_ids = ∅
            ∧ (s.tick now).1.failed = true) := by
  have hg1 : (s.failed || s.status == "COMPLETED" || s.status == "ABORTED") = false := by
    rw [hstatus, hfailed]; rfl
  have hg2 : ¬ (600 < now - s.start_time) := not_lt.mpr h600
  have hcond : (s.status == "PROCESSING" && !s.price_received && s.history_received
      && decide (15 < now - s.start_time)) = true := by
    rw [hstatus, hpr, hhist]
    simp [h15]
  have husable : ((s.price_data.update (some bar.close) "LAST").get_instrument_value).isSome
      = true := update_last_usable _ _
  unfold SymbolProcessor.tick SymbolProcessor.tickFallback
  rw [hg1, hcond, hlast]
  simp only [Bool.false_eq_true, if_false, if_true, hg2]
  split_ifs with hrej
  · exact ⟨rfl, rfl, fun _ => ⟨rfl, rfl, rfl⟩⟩
  · refine ⟨?_, ?_, fun hscr => ?_⟩
    · exact ((tickPipeline_price _ _).1).trans (check_step_expected_move_price _ _).1
    · exact ((tickPipeline_price _ _).2).trans (check_step_expected_move_price _ _).2
    · exact absurd ((is_good_stock_false_iff _ husable).mpr hscr) hrej

/-- A processing task 16 seconds in with history done and a cheap last
close of 38. -/
def stateW8 : SymbolProcessor :=
  { SymbolProcessor.init 0 with
      status := "PROCESSING", history_received := true,
      historic_data := [⟨40, 41, 37, 38⟩] }

/-- C8 witness: the fallback at a 38 close writes LAST = 38, marks the
price received, and the screening rule rejects, aborting the task. -/
theorem C8_price_fallback_witness :
    ((stateW8.tick 16).1.price_data = stateW8.price_data.update (some 38) "LAST")
      ∧ ((stateW8.tick 16).1.price_received = true)
      ∧ (screeningReject (stateW8.price_data.update (some 38) "LAST") →
          (stateW8.tick 16).1.status = "ABORTED"
            ∧ (stateW8.tick 16).1.req_ids = ∅
            ∧ (stateW8.tick 16).1.failed = true)
      ∧ screeningReject (stateW8.price_data.update (some 38) "LAST") :=
  ⟨(C8_price_fallback stateW8 16 ⟨40, 41, 37, 38⟩ rfl rfl rfl rfl rfl (by decide)
      (by decide)).1,
    (C8_price_fallback stateW8 16 ⟨40, 41, 37, 38⟩ rfl rfl rfl rfl rfl (by decide)
      (by decide)).2.1,
    (C8_price_fallback stateW8 16 ⟨40, 41, 37, 38⟩ rfl rfl rfl rfl rfl (by decide)
      (by decide)).2.2,
    Or.inl (by decide)⟩

end RatKernelComputationC

end TWS

namespace TWS

/-! ### C6: resource release on terminal transitions -/

/-- A state is cleanly terminal when, if it is terminal at all, its owned
set is empty and it is either flagged failed or completed. -/
def cleanupPost (t : SymbolProcessor) : Prop :=
  t.is_done = true → t.req_ids = ∅ ∧ (t.failed = true ∨ t.status = "COMPLETED")

/-- What holds of the state flowing through the tail of a tick: either it
is still live, or analysis failed it, cleaned it up, and left no leg wait
behind. -/
def pipePre (t : SymbolProcessor) : Prop :=
  t.is_done = false
    ∨ (t.is_done = true ∧ t.req_ids = ∅ ∧ t.failed = true
        ∧ t.waiting_for_core_options = false ∧ t.waiting_for_range_options = false)

theorem pipePre_cleanup (t : SymbolProcessor) (h : pipePre t) : cleanupPost t := by
  cases h with
  | inl hnd => intro hd; rw [hnd] at hd; cases hd
  | inr hp => intro _; exact ⟨hp.2.1, Or.inl hp.2.2.1⟩

theorem status_ne_processing_of_done (t : SymbolProcessor) (h : t.is_done = true) :
    t.status ≠ "PROCESSING" := by
  intro hc
  unfold SymbolProcessor.is_done at h
  rw [hc] at h
  exact absurd h (by decide)

theorem check_completion_cleanup (s : SymbolProcessor) (hpre : cleanupPost s) :
    cleanupPost (s.check_completion).1 := by
  unfold SymbolProcessor.check_completion
  split
  · exact hpre
  · split
    · intro _
      exact ⟨rfl, Or.inr rfl⟩
    · exact hpre

theorem foldl_req_option_data_is_done (now : ℚ) (keys : List String)
    (s : SymbolProcessor) :
    (keys.foldl (fun st k => st.req_option_data k true now) s).is_done = s.is_done := by
  unfold SymbolProcessor.is_done
  rw [foldl_req_option_data_status]

theorem check_step_expected_move_cleanup (s : SymbolProcessor) (now : ℚ)
    (h : s.is_done = false) : pipePre (s.check_step_expected_move now) := by
  unfold SymbolProcessor.check_step_expected_move
  split_ifs with hg
  · simp only [Bool.and_eq_true, Bool.not_eq_true'] at hg
    obtain ⟨⟨⟨⟨hpr, hoc⟩, han⟩, hwc⟩, hwr⟩ := hg
    unfold SymbolProcessor.start_expected_move_calc
    dsimp only
    split
    · exact Or.inr ⟨rfl, rfl, rfl, hwc, hwr⟩
    · split
      · exact Or.inr ⟨rfl, rfl, rfl, hwc, hwr⟩
      · exact Or.inr ⟨rfl, rfl, rfl, hwc, hwr⟩
      · exact Or.inr ⟨rfl, rfl, rfl, hwc, hwr⟩
      · refine Or.inl ?_
        rw [foldl_req_option_data_is_done]
        exact h
  · exact Or.inl h

end TWS

namespace TWS

theorem is_done_eq_of_status (t u : SymbolProcessor) (h : t.status = u.status) :
    t.is_done = u.is_done := by
  unfold SymbolProcessor.is_done
  rw [h]

theorem is_done_true_elim (t u : SymbolProcessor) (hd : t.is_done = true)
    (hst : t.status = u.status) (hu : u.is_done = false) : False := by
  rw [is_done_eq_of_status t u hst, hu] at hd
  exact absurd hd (by decide)

theorem process_expected_move_result_cleanup (s : SymbolProcessor) (now : ℚ)
    (h : s.is_done = false) : cleanupPost (s.process_expected_move_result now).1 := by
  unfold SymbolProcessor.process_expected_move_result
  split
  · intro _; exact ⟨rfl, Or.inl rfl⟩
  · intro _; exact ⟨rfl, Or.inl rfl⟩
  · dsimp only
    split
    · intro _; exact ⟨rfl, Or.inl rfl⟩
    · split
      · intro _; exact ⟨rfl, Or.inl rfl⟩
      · split
        · refine check_completion_cleanup _ ?_
          intro hdone
          exact absurd (is_done_true_elim _ s hdone
            ((rangeRequestLoop_frame _ _ _ _ _).2.2.2.1) h) (fun hf => hf)
        · intro hdone
          exact absurd (is_done_true_elim _ s hdone
            ((rangeRequestLoop_frame _ _ _ _ _).2.2.2.1) h) (fun hf => hf)

end TWS

namespace TWS

theorem check_core_options_complete_cleanup (s : SymbolProcessor) (now : ℚ)
    (h : s.is_done = false) : cleanupPost (s.check_core_options_complete now).1 := by
  unfold SymbolProcessor.check_core_options_complete
  split
  · intro hd; rw [h] at hd; cases hd
  · dsimp only
    split
    · exact process_expected_move_result_cleanup s now h
    · split
      · split
        · intro _; exact ⟨rfl, Or.inl rfl⟩
        · intro hd; rw [h] at hd; cases hd
      · intro hd; rw [h] at hd; cases hd

theorem check_range_options_complete_cleanup (s : SymbolProcessor) (now : ℚ)
    (hpre : cleanupPost s) : cleanupPost (s.check_range_options_complete now).1 := by
  unfold SymbolProcessor.check_range_options_complete
  split
  · exact hpre
  · dsimp only
    split
    · refine check_completion_cleanup _ ?_
      intro hd
      exact hpre hd
    · split
      · split
        · refine check_completion_cleanup _ ?_
          intro hd
          exact hpre hd
        · exact hpre
      · exact hpre

theorem check_option_chain_timeout_pipePre (s : SymbolProcessor) (now : ℚ)
    (h : s.is_done = false) : pipePre (s.check_option_chain_timeout now) := by
  unfold SymbolProcessor.check_option_chain_timeout
  split
  · split
    · split
      · exact check_step_expected_move_cleanup _ now h
      · exact Or.inl h
    · exact Or.inl h
  · exact Or.inl h

theorem tickFallback_post (s : SymbolProcessor) (now : ℚ) (h : s.is_done = false) :
    (∀ sab, s.tickFallback now = Sum.inl sab → sab.req_ids = ∅ ∧ sab.failed = true)
      ∧ (∀ s2, s.tickFallback now = Sum.inr s2 → pipePre s2) := by
  unfold SymbolProcessor.tickFallback
  split_ifs with hc
  · split
    · dsimp only
      split_ifs with hrej
      · constructor
        · intro sab hs
          cases hs
          exact ⟨rfl, rfl⟩
        · intro s2 hs
          simp at hs
      · constructor
        · intro sab hs
          simp at hs
        · intro s2 hs
          cases hs
          exact check_step_expected_move_cleanup _ now h
    · constructor
      · intro sab hs
        simp at hs
      · intro s2 hs
        cases hs
        exact Or.inl h
  · constructor
    · intro sab hs
      simp at hs
    · intro s2 hs
      cases hs
      exact Or.inl h

theorem tickPipeline_cleanup (s2 : SymbolProcessor) (now : ℚ) (h : pipePre s2) :
    cleanupPost (s2.tickPipeline now).1 := by
  have h3 : ∀ t : SymbolProcessor, pipePre t →
      pipePre (if !t.option_chain_complete then t.check_option_chain_timeout now else t) := by
    intro t ht
    split_ifs with hoc
    · cases ht with
      | inl hnd => exact check_option_chain_timeout_pipePre t now hnd
      | inr pack =>
        have hnp := status_ne_processing_of_done t pack.1
        have hocg : (decide (t.status = "PROCESSING") && !t.option_chain_complete) = false := by
          simp [hnp]
        unfold SymbolProcessor.check_option_chain_timeout
        rw [hocg]
        simp only [Bool.false_eq_true, if_false]
        exact Or.inr pack
    · exact ht
  have h4 : ∀ t : SymbolProcessor, pipePre t →
      cleanupPost ((if t.waiting_for_core_options then t.check_core_options_complete now
        else (t, false)).1) := by
    intro t ht
    split_ifs with hw
    · cases ht with
      | inl hnd => exact check_core_options_complete_cleanup t now hnd
      | inr pack => rw [pack.2.2.2.1] at hw; cases hw
    · exact pipePre_cleanup t ht
  have h5 : ∀ t : SymbolProcessor, cleanupPost t →
      cleanupPost ((if t.waiting_for_range_options then t.check_range_options_complete now
        else (t, false)).1) := by
    intro t ht
    split_ifs with hw
    · exact check_range_options_complete_cleanup t now ht
    · exact ht
  exact check_completion_cleanup _ (h5 _ (h4 _ (h3 _ h)))

end TWS

namespace TWS

theorem on_contract_details_not_done (s : SymbolProcessor) (c : ContractInfo) (now : ℚ)
    (h : s.is_done = false) : (s.on_contract_details c now).is_done = false := by
  unfold SymbolProcessor.on_contract_details
  split_ifs with h1 h2
  · rfl
  · exact h
  · exact h

theorem on_contract_details_end_cleanup (s : SymbolProcessor) (now : ℚ)
    (h : s.is_done = false) : pipePre (s.on_contract_details_end now) := by
  unfold SymbolProcessor.on_contract_details_end
  split_ifs with h1 h2
  · exact check_step_expected_move_cleanup _ now h
  · exact Or.inl h
  · exact Or.inl h

theorem handle_tick_cleanup (s : SymbolProcessor) (reqId : ℕ) (field : String)
    (value : Option ℚ) (now : ℚ) (h : s.is_done = false) :
    cleanupPost (s.handle_tick reqId field value now) := by
  unfold SymbolProcessor.handle_tick
  split_ifs with h1 h4
  · dsimp only
    split_ifs with h2 h3
    · intro _; exact ⟨rfl, Or.inl rfl⟩
    · exact pipePre_cleanup _ (check_step_expected_move_cleanup _ now h)
    · intro hd
      exact (is_done_true_elim _ s hd rfl h).elim
  · split
    · dsimp only
      split_ifs with h5
      · split
        · intro hd
          exact (is_done_true_elim _ s hd rfl h).elim
        · intro hd
          exact (is_done_true_elim _ s hd rfl h).elim
      · split
        · intro hd
          exact (is_done_true_elim _ s hd rfl h).elim
        · intro hd
          exact (is_done_true_elim _ s hd rfl h).elim
    · intro hd
      exact (is_done_true_elim _ s hd rfl h).elim
  · intro hd
    exact (is_done_true_elim _ s hd rfl h).elim

theorem on_tick_option_computation_cleanup (s : SymbolProcessor) (reqId : ℕ)
    (iv d op g vg th : Option ℚ) (h : s.is_done = false) :
    cleanupPost (s.on_tick_option_computation reqId iv d op g vg th) := by
  unfold SymbolProcessor.on_tick_option_computation
  split
  · intro hd
    exact (is_done_true_elim _ s hd rfl h).elim
  · dsimp only
    split_ifs with h5
    · intro hd
      exact (is_done_true_elim _ s hd rfl h).elim
    · intro hd
      exact (is_done_true_elim _ s hd rfl h).elim

theorem on_historical_data_end_cleanup (s : SymbolProcessor) (reqId : ℕ)
    (h : s.is_done = false) : cleanupPost (s.on_historical_data_end reqId).1 := by
  unfold SymbolProcessor.on_historical_data_end
  exact check_completion_cleanup _ (fun hd => (is_done_true_elim _ s hd rfl h).elim)

theorem step_cleanup (s : SymbolProcessor) (now : ℚ) (e : TaskEvent)
    (hnd : s.is_done = false) :
    (s.step now e).1.status = "FAILED" ∨ cleanupPost (s.step now e).1 := by
  have hself : cleanupPost s := by
    intro hd; rw [hnd] at hd; cases hd
  cases e with
  | contractDetails r c =>
    unfold SymbolProcessor.step
    dsimp only
    split_ifs with hr
    · refine Or.inr ?_
      intro hd
      rw [on_contract_details_not_done s c now hnd] at hd
      cases hd
    · exact Or.inr hself
  | contractDetailsEnd r =>
    unfold SymbolProcessor.step
    dsimp only
    split_ifs with hr
    · exact Or.inr (pipePre_cleanup _ (on_contract_details_end_cleanup s now hnd))
    · exact Or.inr hself
  | tickPrice r f v =>
    unfold SymbolProcessor.step
    dsimp only
    split_ifs with hr
    · exact Or.inr (handle_tick_cleanup s r f v now hnd)
    · exact Or.inr hself
  | optionComputation r iv d op g vg th =>
    unfold SymbolProcessor.step
    dsimp only
    split_ifs with hr
    · exact Or.inr (on_tick_option_computation_cleanup s r iv d op g vg th hnd)
    · exact Or.inr hself
  | historicalBar r b =>
    unfold SymbolProcessor.step
    dsimp only
    split_ifs with hr
    · refine Or.inr ?_
      intro hd
      exact (is_done_true_elim _ s hd rfl hnd).elim
    · exact Or.inr hself
  | historicalDataEnd r =>
    unfold SymbolProcessor.step
    dsimp only
    split_ifs with hr
    · exact Or.inr (on_historical_data_end_cleanup s r hnd)
    · exact Or.inr hself
  | errorEvt r c m =>
    unfold SymbolProcessor.step
    dsimp only
    split_ifs with hr
    · unfold SymbolProcessor.on_error
      split_ifs with h1 h2
      · exact Or.inr hself
      · exact Or.inl rfl
      · exact Or.inr hself
    · exact Or.inr hself
  | superTick =>
    unfold SymbolProcessor.step
    dsimp only
    unfold SymbolProcessor.tick
    split_ifs with hg1 hg2
    · exact Or.inr hself
    · refine Or.inr ?_
      intro _
      exact ⟨rfl, Or.inl rfl⟩
    · obtain ⟨hinl, hinr⟩ := tickFallback_post s now hnd
      cases hfb : s.tickFallback now with
      | inl sab =>
        dsimp only
        refine Or.inr ?_
        intro _
        exact ⟨(hinl sab hfb).1, Or.inl (hinl sab hfb).2⟩
      | inr s2 =>
        dsimp only
        exact Or.inr (tickPipeline_cleanup s2 now (hinr s2 hfb))

end TWS

namespace TWS

section RatKernelComputationD

attribute [local semireducible] Rat.sub Rat.add Rat.mul Rat.inv

/-- C6 (amended): a live task that an event moves into a terminal state
has released every owned request, except on the two error paths that skip
`stop`: the identity-lookup error failure (`FAILED`) and the
history-processing exception (`ERROR_HISTORY`). -/
theorem C6_amended (s : SymbolProcessor) (now : ℚ) (e : TaskEvent)
    (hnd : s.is_done = false)
    (hdone : (s.step now e).1.is_done = true)
    (hF : (s.step now e).1.status ≠ "FAILED")
    (hEH : (s.step now e).1.status ≠ "ERROR_HISTORY") :
    (s.step now e).1.req_ids = ∅ := by
  rcases step_cleanup s now e hnd with hf | hc
  · exact absurd hf hF
  · exact (hc hdone).1

/-- C6 witness for the amended theorem: a processing task owning four
requests hits the overall timeout at t = 700; the resulting
`TIMEOUT_OVERALL` state owns nothing. -/
theorem C6_amended_witness :
    ((taskAfterContract.step 700 TaskEvent.superTick).1.req_ids = ∅) :=
  C6_amended taskAfterContract 700 TaskEvent.superTick (by decide) (by decide) (by decide)
    (by decide)

/-- The task after its identity lookup fails: `EarningsApp.error`
dispatches the error to the handler registered for request 1, which marks
the task `FAILED` without calling `stop`. -/
def taskStartErrored : SymbolProcessor :=
  ((SymbolProcessor.init 0).start.step 1 (TaskEvent.errorEvt 1 200 "No security definition")).1

/-- C6 counterexample: the error-driven identity-lookup failure is a
terminal transition after which the task still owns its contract-details
request and its router registration: `on_error` has no `stop` on this
path. -/
theorem C6_counterexample :
    taskStartErrored.is_done = true
      ∧ taskStartErrored.status = "FAILED"
      ∧ taskStartErrored.req_ids = {1}
      ∧ taskStartErrored.registered = {1} := by
  refine ⟨by decide, by decide, by decide, by decide⟩

end RatKernelComputationD

end TWS
